import Mathlib

/- Verification development for the RLabs memory engine (Python sources under
src/python/memory_engine).  The Python code is shallowly embedded:

* Python strings are Lean strings, operated on as character lists by
  executable helper functions mirroring the Python string methods used by
  the source (lower, strip, split, substring membership).
* Python float arithmetic on scores is modeled by exact rational numbers.
* A curated-memory record is modeled as a structure whose fields hold the
  values that the metadata dict lookups of the source return, with the
  source defaults standing in for missing keys.
* The cosine similarity between the query embedding and a memory embedding
  is a floating point computation in the source
  (SmartVectorRetrieval._calculate_vector_similarity); the retrieval
  pipeline only ever consumes the resulting number, so the pipeline is
  parameterized by an oracle sim : Nat -> Q giving that number per memory
  id, and the real-valued cosine itself is modeled separately over the
  reals for the range facts about it.
-/

/- Part 1: Python string primitives.  Each helper mirrors one Python string
operation as used by memory_engine. -/

/-- Model of the Python substring test needle in hay restricted to a prefix
position: true when the first list is an initial segment of the second. -/
def starts_with_chars : List Char → List Char → Bool
  | [], _ => true
  | _ :: _, [] => false
  | a :: as, b :: bs => a == b && starts_with_chars as bs

/-- Model of the Python substring test needle in hay (contiguous occurrence,
empty needle always succeeds). -/
def contains_chars : List Char → List Char → Bool
  | n, [] => starts_with_chars n []
  | n, h :: hs => starts_with_chars n (h :: hs) || contains_chars n hs

/-- Python expression a in b on strings. -/
def py_in (needle hay : String) : Bool :=
  contains_chars needle.data hay.data

/-- Python str.lower (per character, as Char.toLower). -/
def py_lower (s : String) : String :=
  String.mk (s.data.map Char.toLower)

/-- Python whitespace test used by str.strip and str.split. -/
def py_is_space (c : Char) : Bool :=
  c == ' ' || c == Char.ofNat 9 || c == Char.ofNat 10 || c == Char.ofNat 13
    || c == Char.ofNat 11 || c == Char.ofNat 12

/-- Python str.strip with no arguments. -/
def py_strip (s : String) : String :=
  String.mk (((s.data.dropWhile py_is_space).reverse.dropWhile py_is_space).reverse)

/-- Python str.rstrip applied with the single character s, as in
word.rstrip in _score_trigger_phrases. -/
def py_rstrip_s (s : String) : String :=
  String.mk ((s.data.reverse.dropWhile (· == 's')).reverse)

/-- Splitting a character list at every comma, keeping empty pieces,
mirroring Python str.split with an explicit separator. -/
def split_comma_chars : List Char → List (List Char)
  | [] => [[]]
  | c :: rest =>
    let r := split_comma_chars rest
    if c == ',' then [] :: r
    else
      match r with
      | [] => [[c]]
      | h :: t => (c :: h) :: t

/-- Python str.split with separator comma. -/
def py_split_comma (s : String) : List String :=
  (split_comma_chars s.data).map String.mk

/-- Splitting a character list at whitespace, mirroring Python str.split
with no argument once empty pieces are discarded. -/
def split_ws_chars : List Char → List (List Char)
  | [] => [[]]
  | c :: rest =>
    let r := split_ws_chars rest
    if py_is_space c then [] :: r
    else
      match r with
      | [] => [[c]]
      | h :: t => (c :: h) :: t

/-- Python str.split with no argument (splits at whitespace runs and drops
empty pieces). -/
def py_split_ws (s : String) : List String :=
  ((split_ws_chars s.data).map String.mk).filter (fun p => p ≠ "")

/- Part 2: the scoring engine, translated from
src/python/memory_engine/retrieval_strategies.py (SmartVectorRetrieval). -/

/-- Lookup table of _score_temporal_relevance (retrieval_strategies.py,
lines 302 to 310); the session context argument of the source is unused
there and is omitted. -/
def score_temporal_relevance (temporal_type : String) : ℚ :=
  if temporal_type = "persistent" then 0.8
  else if temporal_type = "session" then 0.6
  else if temporal_type = "temporary" then 0.3
  else if temporal_type = "archived" then 0.1
  else 0.5

/-- Keyword table of _score_context_alignment. -/
def context_indicators (context_type : String) : List String :=
  if context_type = "technical_state" then
    ["bug", "error", "fix", "implement", "code", "function"]
  else if context_type = "breakthrough" then
    ["idea", "realized", "discovered", "insight", "solution"]
  else if context_type = "project_context" then
    ["project", "building", "architecture", "system"]
  else if context_type = "personal" then
    ["dear friend", "thank", "appreciate", "feel"]
  else if context_type = "unresolved" then
    ["todo", "need to", "should", "must", "problem"]
  else if context_type = "decision" then
    ["decided", "chose", "will use", "approach", "strategy"]
  else []

/-- Translation of _score_context_alignment (retrieval_strategies.py,
lines 312 to 332). -/
def score_context_alignment (message context_type : String) : ℚ :=
  let message_lower := py_lower message
  let n_matches :=
    ((context_indicators context_type).filter (fun w => py_in w message_lower)).length
  if n_matches > 0 then min (0.3 + (n_matches : ℚ) * 0.2) 1.0 else 0.1

/-- Number of comma separated tags whose stripped lowercase form occurs in
the lowercased message.  The same expression appears verbatim in
_score_semantic_tags (retrieval_strategies.py line 342) and in
MemoryEngine._check_tag_match (memory.py line 674). -/
def tag_match_count (message_lower tags : String) : Nat :=
  ((py_split_comma tags).filter
    (fun tag => py_in (py_lower (py_strip tag)) message_lower)).length

/-- Translation of _score_semantic_tags (retrieval_strategies.py,
lines 334 to 346). -/
def score_semantic_tags (message tags : String) : ℚ :=
  if tags = "" then 0
  else
    let n_matches := tag_match_count (py_lower message) tags
    if n_matches > 0 then min (0.3 + (n_matches : ℚ) * 0.3) 1.0 else 0

/-- Stopword set of _score_trigger_phrases. -/
def trigger_stop_words : List String :=
  ["the", "is", "are", "was", "were", "to", "a", "an", "and", "or", "but",
   "in", "on", "at", "for", "with", "about", "when", "how", "what", "why"]

/-- Situational indicator substrings of _score_trigger_phrases. -/
def situational_indicators : List String :=
  ["when", "during", "while", "asking about", "working on", "debugging",
   "trying to"]

/-- Per-word contribution computed inside the _score_trigger_phrases loop:
1 for a direct substring match, 0.9 for a plural or singular variation,
0.7 for a substring match inside one whitespace separated message word,
0 otherwise. -/
def trigger_word_match (message_lower word : String) : ℚ :=
  if py_in word message_lower then 1
  else if py_in (py_rstrip_s word) message_lower || py_in (word ++ "s") message_lower then
    0.9
  else if (py_split_ws message_lower).any (fun mw => py_in word mw) then 0.7
  else 0

/-- Key concept words of one trigger pattern: stopwords removed and only
words longer than two characters kept. -/
def trigger_pattern_words (pattern_lower : String) : List String :=
  (py_split_ws pattern_lower).filter
    (fun w => !(trigger_stop_words.contains w) && w.length > 2)

/-- Concept score of one trigger pattern against the lowercased message,
including the situational boost of _score_trigger_phrases. -/
def trigger_concept_score (message_lower pattern : String) : ℚ :=
  let pattern_lower := py_lower (py_strip pattern)
  let pattern_words := trigger_pattern_words pattern_lower
  let n_matches :=
    pattern_words.foldl (fun m w => m + trigger_word_match message_lower w) 0
  let concept_score := n_matches / (pattern_words.length : ℚ)
  if situational_indicators.any (fun ind => py_in ind pattern_lower)
      && pattern_words.any (fun kw => py_in kw message_lower) then
    max concept_score 0.7
  else concept_score

/-- Translation of _score_trigger_phrases (retrieval_strategies.py,
lines 348 to 392): the maximum pattern concept score over the comma
separated patterns, capped at 1; patterns without key concept words leave
the running maximum unchanged. -/
def score_trigger_phrases (message trigger_phrases : String) : ℚ :=
  if trigger_phrases = "" then 0
  else
    let message_lower := py_lower message
    let max_score :=
      (py_split_comma trigger_phrases).foldl
        (fun acc pattern =>
          if trigger_pattern_words (py_lower (py_strip pattern)) = [] then acc
          else max acc (trigger_concept_score message_lower pattern))
        0
    min max_score 1.0

/-- Interrogative words of _score_question_types. -/
def question_words : List String := ["how", "why", "what", "when", "where"]

/-- Loop of _score_question_types with the early returns of the source:
an exact substring match returns 0.8, a shared interrogative word returns
0.5, otherwise the next question type is tried. -/
def score_question_types_loop (message_lower : String) : List String → ℚ
  | [] => 0
  | qtype :: rest =>
    let qtype_lower := py_lower (py_strip qtype)
    if py_in qtype_lower message_lower then 0.8
    else if question_words.any (fun q => py_in q message_lower)
        && question_words.any (fun q => py_in q qtype_lower) then 0.5
    else score_question_types_loop message_lower rest

/-- Translation of _score_question_types (retrieval_strategies.py,
lines 394 to 412). -/
def score_question_types (message question_types : String) : ℚ :=
  if question_types = "" then 0
  else score_question_types_loop (py_lower message) (py_split_comma question_types)

/-- Keyword table of _score_emotional_context. -/
def emotion_patterns (emotion : String) : List String :=
  if emotion = "joy" then ["happy", "excited", "love", "wonderful", "great", "awesome"]
  else if emotion = "frustration" then ["stuck", "confused", "help", "issue", "problem", "why"]
  else if emotion = "discovery" then ["realized", "found", "discovered", "aha", "insight"]
  else if emotion = "gratitude" then ["thank", "appreciate", "grateful", "dear friend"]
  else []

/-- Translation of _score_emotional_context (retrieval_strategies.py,
lines 414 to 433). -/
def score_emotional_context (message emotion : String) : ℚ :=
  if emotion = "" then 0
  else if (emotion_patterns (py_lower emotion)).any
      (fun p => py_in p (py_lower message)) then 0.7
  else 0

/-- Problem indicator words of _score_problem_solution. -/
def problem_words : List String :=
  ["error", "issue", "problem", "stuck", "help", "fix", "solve", "debug"]

/-- Translation of _score_problem_solution (retrieval_strategies.py,
lines 435 to 447). -/
def score_problem_solution (message : String) (is_problem_solution : Bool) : ℚ :=
  if !is_problem_solution then 0
  else if problem_words.any (fun w => py_in w (py_lower message)) then 0.8
  else 0

/- Part 3: memory records and the per-memory scoring pass of
SmartVectorRetrieval.retrieve_relevant_memories. -/

/-- One curated memory as the retrieval pipeline sees it.  The fields hold
the values that the metadata lookups of the source return; a missing
embedding (stored as None) is modeled by has_embedding = false, in which
case the source computes similarity 0. -/
structure Memory where
  id : Nat
  content : String
  importance_weight : ℚ
  confidence_score : ℚ
  context_type : String
  temporal_relevance : String
  knowledge_domain : String
  action_required : Bool
  semantic_tags : String
  trigger_phrases : String
  question_types : String
  emotional_resonance : String
  problem_solution_pair : Bool
  has_embedding : Bool
deriving DecidableEq, Repr

/-- Effective vector similarity consumed by the pipeline: the cosine oracle
value when an embedding is present, otherwise 0 (the source returns 0.0
from _calculate_vector_similarity when a vector is missing or empty). -/
def memory_vector_score (sim : Nat → ℚ) (m : Memory) : ℚ :=
  if m.has_embedding then sim m.id else 0

/-- Relevance gate score of retrieve_relevant_memories (lines 131 to 136):
trigger 0.10, vector 0.10, tag 0.05, question 0.05. -/
def relevance_score (trigger_score vector_score tag_score question_score : ℚ) : ℚ :=
  trigger_score * 0.10 + vector_score * 0.10 + tag_score * 0.05 + question_score * 0.05

/-- Value score of retrieve_relevant_memories (lines 139 to 147):
importance 0.20, temporal 0.10, context 0.10, confidence 0.10,
emotion 0.10, problem 0.05, action 0.05. -/
def value_score (importance temporal_score context_score confidence_score
    emotion_score problem_score action_boost : ℚ) : ℚ :=
  importance * 0.20 + temporal_score * 0.10 + context_score * 0.10 +
    confidence_score * 0.10 + emotion_score * 0.10 + problem_score * 0.05 +
    action_boost * 0.05

/-- A scored memory: the entry appended to scored_memories in
retrieve_relevant_memories, with its component scores. -/
structure Scored where
  memory : Memory
  score : ℚ
  relevance : ℚ
  value : ℚ
  trigger : ℚ
  vector : ℚ
  importance : ℚ
  temporal : ℚ
  context : ℚ
  tags : ℚ
  question : ℚ
  emotion : ℚ
  problem : ℚ
  action : ℚ
deriving DecidableEq, Repr

/-- Scoring pass of retrieve_relevant_memories (lines 68 to 150) for one
memory: all component scores, the relevance score, the value score and the
final score. -/
def scoreMemory (message : String) (sim : Nat → ℚ) (m : Memory) : Scored :=
  let vector_score := memory_vector_score sim m
  let importance := m.importance_weight
  let temporal_score := score_temporal_relevance m.temporal_relevance
  let context_score := score_context_alignment message m.context_type
  let action_boost : ℚ := if m.action_required then 0.3 else 0.0
  let tag_score := score_semantic_tags message m.semantic_tags
  let trigger_score := score_trigger_phrases message m.trigger_phrases
  let question_score := score_question_types message m.question_types
  let emotion_score := score_emotional_context message m.emotional_resonance
  let problem_score := score_problem_solution message m.problem_solution_pair
  let confidence := m.confidence_score
  let rel := relevance_score trigger_score vector_score tag_score question_score
  let val := value_score importance temporal_score context_score confidence
    emotion_score problem_score action_boost
  { memory := m, score := val + rel, relevance := rel, value := val,
    trigger := trigger_score, vector := vector_score, importance := importance,
    temporal := temporal_score, context := context_score, tags := tag_score,
    question := question_score, emotion := emotion_score,
    problem := problem_score, action := action_boost }

/-- Gatekeeper check of retrieve_relevant_memories (lines 152 to 155): a
memory is kept only when neither relevance below 0.05 nor final score
below 0.3 holds. -/
def passes_gate (s : Scored) : Bool :=
  !(s.relevance < 0.05 || s.score < 0.3)

/-- The scored and gate-filtered candidate list built by the scoring loop
of retrieve_relevant_memories. -/
def gate_passing (message : String) (sim : Nat → ℚ) (all_memories : List Memory) :
    List Scored :=
  (all_memories.map (scoreMemory message sim)).filter passes_gate

/- Part 4: the multi-tier selection of
SmartVectorRetrieval.retrieve_relevant_memories (lines 183 to 271). -/

/-- Stable insertion step for sort_stable. -/
def insert_stable (le : α → α → Bool) (x : α) : List α → List α
  | [] => [x]
  | y :: ys => if le x y then x :: y :: ys else y :: insert_stable le x ys

/-- Stable sort.  Python list.sort is stable, and a stable sort for a total
preorder has a unique result, so this insertion sort computes exactly the
list produced by scored_memories.sort(key score, reverse True). -/
def sort_stable (le : α → α → Bool) : List α → List α
  | [] => []
  | x :: xs => insert_stable le x (sort_stable le xs)

/-- Descending order on final score used by the sort call of line 184. -/
def by_score_desc (a b : Scored) : Bool :=
  b.score ≤ a.score

/-- Tier 1 membership test (lines 191 to 195): very high combined score,
critical importance, action required, or any component above 0.9. -/
def is_critical (s : Scored) : Bool :=
  s.score > 0.8 || s.importance > 0.9 || s.action > 0 ||
    (s.trigger > 0.9 || s.vector > 0.9 || s.importance > 0.9 || s.temporal > 0.9 ||
     s.context > 0.9 || s.tags > 0.9 || s.question > 0.9 || s.emotion > 0.9 ||
     s.problem > 0.9 || s.action > 0.9)

/-- Tier 2 loop (lines 204 to 227): stop at 1.5 times the budget, skip
already selected ids, include on score above 0.5, a context type not yet
represented in this tier, or a nonempty emotional resonance. -/
def tier2 (max_memories : Nat) : List Scored → List Memory → List Nat → List String →
    List Memory × List Nat
  | [], selected, ids, _ => (selected, ids)
  | item :: rest, selected, ids, types =>
    if (selected.length : ℚ) ≥ (max_memories : ℚ) * 1.5 then (selected, ids)
    else if ids.contains item.memory.id then tier2 max_memories rest selected ids types
    else if item.score > 0.5 || !(types.contains item.memory.context_type)
        || item.memory.emotional_resonance ≠ "" then
      tier2 max_memories rest (selected ++ [item.memory]) (ids ++ [item.memory.id])
        (types ++ [item.memory.context_type])
    else tier2 max_memories rest selected ids types

/-- Stripped nonempty semantic tags of one memory, as built by the tier 3
code (lines 236 to 252). -/
def memory_tag_set (m : Memory) : List String :=
  ((py_split_comma m.semantic_tags).map py_strip).filter (fun t => t ≠ "")

/-- Tags shared by the already selected memories (Python set modeled as a
list; only membership is consulted). -/
def selected_tags (selected : List Memory) : List String :=
  selected.foldl (fun acc m => acc ++ memory_tag_set m) []

/-- Nonempty knowledge domains of the already selected memories. -/
def selected_domains (selected : List Memory) : List String :=
  selected.foldl
    (fun acc m => if m.knowledge_domain ≠ "" then acc ++ [m.knowledge_domain] else acc) []

/-- Tier 3 loop (lines 242 to 260): stop at twice the budget, skip already
selected ids, include when a semantic tag or the knowledge domain is shared
with the memories selected before this tier started. -/
def tier3 (max_memories : Nat) (cur_tags cur_domains : List String) :
    List Scored → List Memory → List Nat → List Memory × List Nat
  | [], selected, ids => (selected, ids)
  | item :: rest, selected, ids =>
    if selected.length ≥ max_memories * 2 then (selected, ids)
    else if ids.contains item.memory.id then
      tier3 max_memories cur_tags cur_domains rest selected ids
    else if (memory_tag_set item.memory).any (fun t => cur_tags.contains t)
        || cur_domains.contains item.memory.knowledge_domain then
      tier3 max_memories cur_tags cur_domains rest (selected ++ [item.memory])
        (ids ++ [item.memory.id])
    else tier3 max_memories cur_tags cur_domains rest selected ids

/-- Translation of SmartVectorRetrieval.retrieve_relevant_memories
(retrieval_strategies.py, lines 46 to 271): score and gate every candidate,
sort by final score descending, then apply the three selection tiers and
truncate to the budget. -/
def retrieve_relevant_memories (all_memories : List Memory) (message : String)
    (sim : Nat → ℚ) (max_memories : Nat) : List Memory :=
  if all_memories = [] then []
  else
    let scored := sort_stable by_score_desc (gate_passing message sim all_memories)
    let must_include := (scored.filter is_critical).take max_memories
    let selected1 := must_include.map (·.memory)
    let ids1 := must_include.map (·.memory.id)
    let remaining := must_include.foldl (fun l item => l.erase item) scored
    let step2 :=
      if selected1.length < max_memories ∧ (selected1.length : ℚ) < (max_memories : ℚ) * 1.5 then
        tier2 max_memories remaining selected1 ids1 []
      else (selected1, ids1)
    let step3 :=
      if step2.1.length < max_memories * 2 then
        tier3 max_memories (selected_tags step2.1) (selected_domains step2.1)
          remaining step2.1 step2.2
      else step2
    step3.1.take max_memories

/- Part 5: the two-stage pipeline of MemoryEngine (memory.py). -/

/-- Translation of MemoryEngine._check_trigger_match (memory.py, lines 661
to 666). -/
def check_trigger_match (trigger_phrases message : String) : Bool :=
  score_trigger_phrases message trigger_phrases > 0.5

/-- Translation of MemoryEngine._check_tag_match (memory.py, lines 668 to
675). -/
def check_tag_match (tags message : String) : Bool :=
  if tags = "" then false
  else tag_match_count (py_lower message) tags ≥ 1

/-- Translation of MemoryEngine._check_question_match (memory.py, lines 677
to 683). -/
def check_question_match (question_types message : String) : Bool :=
  if question_types = "" || !(py_in "?" message) then false
  else (py_split_comma question_types).any
    (fun q => py_in (py_lower (py_strip q)) (py_lower message))

/-- Accumulated quick relevance score of _calculate_basic_relevance
(memory.py, lines 600 to 629): trigger phrase match adds 0.4, vector
similarity above 0.7 adds 0.3, tag match adds 0.2, question type match
adds 0.1. -/
def basic_relevance_score (m : Memory) (message : String) (sim : Nat → ℚ) : ℚ :=
  (if m.trigger_phrases ≠ "" ∧ check_trigger_match m.trigger_phrases message then (0.4 : ℚ) else 0)
  + (if m.has_embedding ∧ memory_vector_score sim m > 0.7 then (0.3 : ℚ) else 0)
  + (if m.semantic_tags ≠ "" ∧ check_tag_match m.semantic_tags message then (0.2 : ℚ) else 0)
  + (if m.question_types ≠ "" ∧ check_question_match m.question_types message then (0.1 : ℚ) else 0)

/-- Stage 1 pre-check: _calculate_basic_relevance returns whether the quick
relevance score reaches 0.3. -/
def calculate_basic_relevance (m : Memory) (message : String) (sim : Nat → ℚ) : Bool :=
  basic_relevance_score m message sim ≥ 0.3

/-- Stage 1 qualification (memory.py, lines 493 to 512): basic relevance
together with one of the override conditions, action required, persistent
with importance above 0.85, or importance above 0.9. -/
def stage1_qualifies (m : Memory) (message : String) (sim : Nat → ℚ) : Bool :=
  calculate_basic_relevance m message sim &&
    (m.action_required ||
      (m.temporal_relevance = "persistent" && m.importance_weight > 0.85) ||
      m.importance_weight > 0.9)

/-- Stage 1 loop of _get_relevant_memories_for_context (memory.py, lines
484 to 519): skip already injected memories, collect qualifying memories
whose id is not selected yet, and stop as soon as three are collected. -/
def stage1_loop (message : String) (sim : Nat → ℚ) (injected : List Nat) :
    List Memory → List Nat → List Memory → List Memory
  | [], _, acc => acc
  | m :: rest, sel_ids, acc =>
    if injected.contains m.id then stage1_loop message sim injected rest sel_ids acc
    else if stage1_qualifies m message sim && !(sel_ids.contains m.id) then
      let acc2 := acc ++ [m]
      if acc2.length ≥ 3 then acc2
      else stage1_loop message sim injected rest (sel_ids ++ [m.id]) acc2
    else stage1_loop message sim injected rest sel_ids acc

/-- Translation of MemoryEngine._get_relevant_memories_for_context
(memory.py, lines 457 to 598) in the default smart_vector retrieval mode:
stage 1 obligatory selection, then smart vector retrieval over the
remaining candidates with the remaining budget out of 5, and finally the
session injected set is extended with every returned id. -/
def get_relevant_memories_for_context (all_curated : List Memory)
    (injected : List Nat) (message : String) (sim : Nat → ℚ) :
    List Memory × List Nat :=
  if all_curated = [] then ([], injected)
  else
    let must_include := stage1_loop message sim injected all_curated [] []
    let selected_ids := must_include.map (·.id)
    let remaining_slots := 5 - must_include.length
    let additional :=
      if remaining_slots > 0 then
        retrieve_relevant_memories
          (all_curated.filter
            (fun m => !(selected_ids.contains m.id) && !(injected.contains m.id)))
          message sim remaining_slots
      else []
    let final_memories := must_include ++ additional
    (final_memories,
     final_memories.foldl
       (fun inj m => if inj.contains m.id then inj else inj ++ [m.id]) injected)

/-- Python exception kinds relevant to this development. -/
inductive PyErr where
  | typeError
  | attributeError
deriving DecidableEq, Repr

/-- Translation of SessionPrimerGenerator.generate_primer
(session_primer.py, lines 42 to 63).  Its first step,
_get_all_curated_memories, immediately evaluates
self.storage.get_all_curated_memories() with no argument
(session_primer.py line 69), but MemoryStorage.get_all_curated_memories
(storage.py line 242) requires the positional argument project_id, so the
call raises TypeError before any primer text is assembled, whatever the
stored data is. -/
def generate_primer : Except PyErr String :=
  .error .typeError

/-- Per-session mutable state held in MemoryEngine.session_metadata:
message count and the injected memory ids (the set is modeled as a list
without duplicates of meaning, only membership is consulted). -/
structure SessionMeta where
  message_count : Nat
  injected_memories : List Nat
deriving DecidableEq, Repr

/-- Conversation context returned to the caller; the formatted context text
is omitted, no claim consults it outside the primer branch, which raises
before producing any text. -/
structure ConversationCtx where
  message_count : Nat
  relevant_memories : List Memory
deriving DecidableEq, Repr

/-- Translation of MemoryEngine.get_context_for_session (memory.py, lines
371 to 455) for a session whose metadata entry exists (the source creates
the entry with message count 0 before reading it) and with a project id
provided.  For a subsequent session at message count 0 the primer branch
runs and its TypeError propagates out of the coroutine; for a first session
no memories are retrieved; otherwise the two-stage retrieval runs and the
injected set is updated. -/
def get_context_for_session (meta : SessionMeta) (is_first_session : Bool)
    (all_curated : List Memory) (current_message : String) (sim : Nat → ℚ) :
    Except PyErr ConversationCtx × SessionMeta :=
  if is_first_session = false ∧ meta.message_count = 0 then
    match generate_primer with
    | .error e => (.error e, meta)
    | .ok _ => (.ok ⟨0, []⟩, meta)
  else if is_first_session then (.ok ⟨meta.message_count, []⟩, meta)
  else
    let result :=
      get_relevant_memories_for_context all_curated meta.injected_memories
        current_message sim
    (.ok ⟨meta.message_count, result.1⟩,
     { meta with injected_memories := result.2 })

/-- Translation of the message tracking of the /memory/process endpoint
(api.py, lines 171 to 200): the only place where the session message count
is incremented. -/
def process_message (meta : SessionMeta) : SessionMeta :=
  { meta with message_count := meta.message_count + 1 }

/-- One engine call affecting a fixed session: either a get context request
(with the per-call candidate pool, message and similarity oracle) or a
process message request. -/
inductive EngineCall where
  | get_ctx (is_first_session : Bool) (pool : List Memory) (message : String)
      (sim : Nat → ℚ)
  | process

/-- Execute one engine call: the list of memory ids handed to the caller
and the new session state. -/
def run_call (meta : SessionMeta) : EngineCall → List Nat × SessionMeta
  | .get_ctx fs pool msg sim =>
    let r := get_context_for_session meta fs pool msg sim
    (match r.1 with
     | .ok ctx => ctx.relevant_memories.map (·.id)
     | .error _ => [],
     r.2)
  | .process => ([], process_message meta)

/-- Execute a sequence of engine calls, collecting the returned id lists. -/
def run_trace (meta : SessionMeta) : List EngineCall → List (List Nat)
  | [] => []
  | c :: cs =>
    let r := run_call meta c
    r.1 :: run_trace r.2 cs

/- Part 6: the curation response data model and parsers (curator.py).  The
values exchanged between the curation agent and the parser are modeled by
PyVal, covering the JSON and Python literal structures the source handles:
integers, strings, booleans, null, arrays and string-keyed objects.  The
standard library collaborators json.loads, json.dumps, ast.literal_eval
and repr are modeled by one quote-dialect parameterized renderer and
recursive descent parser: dialect false is the JSON surface (double quoted
strings, true, false, null), dialect true is the Python literal surface
(single quoted strings accepted, True, False, None).  Escape sequences and
floating point literals are outside the modeled sublanguage. -/

/-- Single quote character. -/
def squote : Char := Char.ofNat 39

/-- Double quote character. -/
def dquote : Char := Char.ofNat 34

/-- Left brace character. -/
def lbrace : Char := Char.ofNat 123

/-- Right brace character. -/
def rbrace : Char := Char.ofNat 125

/-- Values the curation response parser handles. -/
inductive PyVal where
  | int (n : Int)
  | str (s : String)
  | bool (b : Bool)
  | null
  | list (xs : List PyVal)
  | dict (kvs : List (String × PyVal))

/-- Decimal digit character of a value below ten. -/
def digit_char : Nat → Char
  | 0 => '0' | 1 => '1' | 2 => '2' | 3 => '3' | 4 => '4'
  | 5 => '5' | 6 => '6' | 7 => '7' | 8 => '8' | _ => '9'

/-- Decimal rendering of a natural number. -/
def render_nat (n : Nat) : List Char :=
  if _h : n < 10 then [digit_char n]
  else render_nat (n / 10) ++ [digit_char (n % 10)]
decreasing_by exact Nat.div_lt_self (by omega) (by omega)

/-- Decimal rendering of an integer. -/
def render_int (n : Int) : List Char :=
  if n < 0 then '-' :: render_nat n.natAbs else render_nat n.natAbs

/-- String quote used by each dialect: repr uses single quotes, json.dumps
double quotes. -/
def str_quote (d : Bool) : Char := if d then squote else dquote

/-- Quote characters each parser accepts as the start of a string literal:
ast.literal_eval accepts both quote styles, json.loads only double
quotes. -/
def quote_ok (d : Bool) (c : Char) : Bool :=
  if d then c == squote || c == dquote else c == dquote

/-- True token of each dialect. -/
def tok_true (d : Bool) : List Char :=
  if d then ['T', 'r', 'u', 'e'] else ['t', 'r', 'u', 'e']

/-- False token of each dialect. -/
def tok_false (d : Bool) : List Char :=
  if d then ['F', 'a', 'l', 's', 'e'] else ['f', 'a', 'l', 's', 'e']

/-- Null token of each dialect. -/
def tok_null (d : Bool) : List Char :=
  if d then ['N', 'o', 'n', 'e'] else ['n', 'u', 'l', 'l']

mutual

/-- Rendering of one value in the given dialect, with the default
separators of json.dumps and repr (comma space, colon space). -/
def render_val (d : Bool) : PyVal → List Char
  | .int n => render_int n
  | .str s => str_quote d :: s.data ++ [str_quote d]
  | .bool b => if b then tok_true d else tok_false d
  | .null => tok_null d
  | .list xs => '[' :: render_items d xs ++ [']']
  | .dict kvs => lbrace :: render_kvs d kvs ++ [rbrace]

/-- Rendering of array elements separated by comma space. -/
def render_items (d : Bool) : List PyVal → List Char
  | [] => []
  | [x] => render_val d x
  | x :: y :: rest => render_val d x ++ ',' :: ' ' :: render_items d (y :: rest)

/-- Rendering of object entries separated by comma space, keys followed by
colon space. -/
def render_kvs (d : Bool) : List (String × PyVal) → List Char
  | [] => []
  | [(k, v)] => str_quote d :: k.data ++ str_quote d :: ':' :: ' ' :: render_val d v
  | (k, v) :: kv :: rest =>
    str_quote d :: k.data ++ str_quote d :: ':' :: ' ' :: render_val d v ++
      ',' :: ' ' :: render_kvs d (kv :: rest)

end

/-- Leading whitespace removal. -/
def skip_ws (l : List Char) : List Char := l.dropWhile py_is_space

/-- String body scan: the characters up to the closing quote and the
remaining input. -/
def take_str (q : Char) : List Char → Option (List Char × List Char)
  | [] => none
  | c :: rest =>
    if c == q then some ([], rest)
    else
      match take_str q rest with
      | some (s, r) => some (c :: s, r)
      | none => none

/-- Exact token match returning the remaining input. -/
def expect_chars : List Char → List Char → Option (List Char)
  | [], rest => some rest
  | t :: ts, c :: rest => if t == c then expect_chars ts rest else none
  | _ :: _, [] => none

/-- Maximal leading digit run. -/
def take_digits : List Char → List Char × List Char
  | [] => ([], [])
  | c :: rest =>
    if c.isDigit then
      let r := take_digits rest
      (c :: r.1, r.2)
    else ([], c :: rest)

/-- Value of a digit run. -/
def digits_to_nat (l : List Char) : Nat :=
  l.foldl (fun acc c => acc * 10 + (c.toNat - 48)) 0

/-- Integer literal scan (optional minus sign, then digits). -/
def parse_int_token : List Char → Option (Int × List Char)
  | '-' :: rest =>
    (match take_digits rest with
     | ([], _) => none
     | (ds, r) => some (-(digits_to_nat ds : Int), r))
  | l =>
    match take_digits l with
    | ([], _) => none
    | (ds, r) => some ((digits_to_nat ds : Int), r)

mutual

/-- Recursive descent parser for one value of the given dialect.  The fuel
argument bounds the nesting work; callers pass the input length plus one,
which the roundtrip lemmas show suffices for every rendered value. -/
def parse_val (d : Bool) : Nat → List Char → Option (PyVal × List Char)
  | 0, _ => none
  | fuel + 1, input =>
    match skip_ws input with
    | [] => none
    | c :: rest =>
      if quote_ok d c then
        match take_str c rest with
        | some (s, r) => some (.str (String.mk s), r)
        | none => none
      else if c == '[' then
        match skip_ws rest with
        | [] => none
        | c2 :: rest2 =>
          if c2 == ']' then some (.list [], rest2)
          else
            match parse_val d fuel (c2 :: rest2) with
            | some (v, r2) =>
              match parse_items d fuel r2 with
              | some (vs, r3) => some (.list (v :: vs), r3)
              | none => none
            | none => none
      else if c == lbrace then
        match skip_ws rest with
        | [] => none
        | c2 :: rest2 =>
          if c2 == rbrace then some (.dict [], rest2)
          else if quote_ok d c2 then
            match take_str c2 rest2 with
            | some (k, r2) =>
              (match skip_ws r2 with
               | ':' :: r3 =>
                 match parse_val d fuel r3 with
                 | some (v, r4) =>
                   match parse_kvs d fuel r4 with
                   | some (kvs, r5) => some (.dict ((String.mk k, v) :: kvs), r5)
                   | none => none
                 | none => none
               | _ => none)
            | none => none
          else none
      else
        match expect_chars (tok_true d) (c :: rest) with
        | some r => some (.bool true, r)
        | none =>
          match expect_chars (tok_false d) (c :: rest) with
          | some r => some (.bool false, r)
          | none =>
            match expect_chars (tok_null d) (c :: rest) with
            | some r => some (.null, r)
            | none =>
              match parse_int_token (c :: rest) with
              | some (n, r) => some (.int n, r)
              | none => none

/-- Array continuation parser: a closing bracket ends the array, a comma
is followed by the next element. -/
def parse_items (d : Bool) : Nat → List Char → Option (List PyVal × List Char)
  | 0, _ => none
  | fuel + 1, input =>
    match skip_ws input with
    | [] => none
    | c :: rest =>
      if c == ']' then some ([], rest)
      else if c == ',' then
        match parse_val d fuel rest with
        | some (v, r) =>
          match parse_items d fuel r with
          | some (vs, r2) => some (v :: vs, r2)
          | none => none
        | none => none
      else none

/-- Object continuation parser: a closing brace ends the object, a comma is
followed by the next key, colon and value. -/
def parse_kvs (d : Bool) : Nat → List Char → Option (List (String × PyVal) × List Char)
  | 0, _ => none
  | fuel + 1, input =>
    match skip_ws input with
    | [] => none
    | c :: rest =>
      if c == rbrace then some ([], rest)
      else if c == ',' then
        match skip_ws rest with
        | [] => none
        | c2 :: rest2 =>
          if quote_ok d c2 then
            match take_str c2 rest2 with
            | some (k, r2) =>
              (match skip_ws r2 with
               | ':' :: r3 =>
                 match parse_val d fuel r3 with
                 | some (v, r4) =>
                   match parse_kvs d fuel r4 with
                   | some (kvs, r5) => some ((String.mk k, v) :: kvs, r5)
                   | none => none
                 | none => none
               | _ => none)
            | none => none
          else none
      else none

end

/-- Model of json.loads: parse in the JSON dialect and require only
whitespace after the value. -/
def json_loads (s : String) : Option PyVal :=
  match parse_val false (s.data.length + 1) s.data with
  | some (v, rest) => if (skip_ws rest).isEmpty then some v else none
  | none => none

/-- Model of ast.literal_eval: parse in the Python literal dialect and
require only whitespace after the value. -/
def ast_literal_eval (s : String) : Option PyVal :=
  match parse_val true (s.data.length + 1) s.data with
  | some (v, rest) => if (skip_ws rest).isEmpty then some v else none
  | none => none

/-- Model of json.dumps with its default separators. -/
def json_dumps (v : PyVal) : String := String.mk (render_val false v)

/-- Model of the Python literal rendering (repr) of a value: single quoted
strings, True, False, None. -/
def python_repr (v : PyVal) : String := String.mk (render_val true v)

/- The regex quote fixes of _parse_curation_response (curator.py, lines 661
to 665), applied when ast.literal_eval also fails.  Each function performs
one re.sub pass: scan left to right, rewrite every leftmost nonoverlapping
match and continue after it, otherwise advance one character. -/

/-- Pass for keys: a single quoted run followed by optional whitespace and
a colon is rewritten with double quotes. -/
def regex_sub_keys : Nat → List Char → List Char
  | 0, l => l
  | _ + 1, [] => []
  | fuel + 1, c :: rest =>
    if c == squote then
      match take_str squote rest with
      | some (content, r2) =>
        let ws := r2.takeWhile py_is_space
        (match r2.drop ws.length with
         | ':' :: r4 =>
           dquote :: content ++ dquote :: ws ++ ':' :: regex_sub_keys fuel r4
         | _ => c :: regex_sub_keys fuel rest)
      | none => c :: regex_sub_keys fuel rest
    else c :: regex_sub_keys fuel rest

/-- Pass for values: a colon, optional whitespace and a single quoted run
is rewritten as colon, one space and double quotes. -/
def regex_sub_values : Nat → List Char → List Char
  | 0, l => l
  | _ + 1, [] => []
  | fuel + 1, c :: rest =>
    if c == ':' then
      let ws := rest.takeWhile py_is_space
      (match rest.drop ws.length with
       | q :: r3 =>
         if q == squote then
           match take_str squote r3 with
           | some (content, r4) =>
             ':' :: ' ' :: dquote :: content ++ dquote :: regex_sub_values fuel r4
           | none => c :: regex_sub_values fuel rest
         else c :: regex_sub_values fuel rest
       | [] => c :: regex_sub_values fuel rest)
    else c :: regex_sub_values fuel rest

/-- Pass for array starts: an opening bracket, optional whitespace and a
single quote becomes bracket and double quote. -/
def regex_sub_array_start : Nat → List Char → List Char
  | 0, l => l
  | _ + 1, [] => []
  | fuel + 1, c :: rest =>
    if c == '[' then
      let ws := rest.takeWhile py_is_space
      (match rest.drop ws.length with
       | q :: r3 =>
         if q == squote then '[' :: dquote :: regex_sub_array_start fuel r3
         else c :: regex_sub_array_start fuel rest
       | [] => c :: regex_sub_array_start fuel rest)
    else c :: regex_sub_array_start fuel rest

/-- Pass for array ends: a single quote, optional whitespace and a closing
bracket becomes double quote and bracket. -/
def regex_sub_array_end : Nat → List Char → List Char
  | 0, l => l
  | _ + 1, [] => []
  | fuel + 1, c :: rest =>
    if c == squote then
      let ws := rest.takeWhile py_is_space
      (match rest.drop ws.length with
       | q :: r3 =>
         if q == ']' then dquote :: ']' :: regex_sub_array_end fuel r3
         else c :: regex_sub_array_end fuel rest
       | [] => c :: regex_sub_array_end fuel rest)
    else c :: regex_sub_array_end fuel rest

/-- Pass for array separators: quote, optional whitespace, comma, optional
whitespace, quote becomes quote comma space quote with double quotes. -/
def regex_sub_array_mid : Nat → List Char → List Char
  | 0, l => l
  | _ + 1, [] => []
  | fuel + 1, c :: rest =>
    if c == squote then
      let ws := rest.takeWhile py_is_space
      (match rest.drop ws.length with
       | q :: r3 =>
         if q == ',' then
           let ws2 := r3.takeWhile py_is_space
           (match r3.drop ws2.length with
            | q2 :: r4 =>
              if q2 == squote then
                dquote :: ',' :: ' ' :: dquote :: regex_sub_array_mid fuel r4
              else c :: regex_sub_array_mid fuel rest
            | [] => c :: regex_sub_array_mid fuel rest)
         else c :: regex_sub_array_mid fuel rest
       | [] => c :: regex_sub_array_mid fuel rest)
    else c :: regex_sub_array_mid fuel rest

/-- The five substitution passes in source order. -/
def regex_quote_fix (s : String) : String :=
  let l1 := regex_sub_keys (s.data.length + 1) s.data
  let l2 := regex_sub_values (l1.length + 1) l1
  let l3 := regex_sub_array_start (l2.length + 1) l2
  let l4 := regex_sub_array_end (l3.length + 1) l3
  String.mk (regex_sub_array_mid (l4.length + 1) l4)

/-- Python truthiness of a parsed value. -/
def truthy : PyVal → Bool
  | .int n => n != 0
  | .str s => s != ""
  | .bool b => b
  | .null => false
  | .list xs => !xs.isEmpty
  | .dict kvs => !kvs.isEmpty

/-- Python dict.get with a default (keys are unique in parsed Python
dicts; the wellformedness predicate below demands distinct keys). -/
def dict_get (kvs : List (String × PyVal)) (key : String) (default : PyVal) : PyVal :=
  match kvs.find? (fun kv => kv.1 == key) with
  | some kv => kv.2
  | none => default

/-- Python float conversion as applied to parsed metadata numbers; numeric
strings are outside the modeled sublanguage, every other non-numeric value
raises and the enclosing per-memory handler skips the memory. -/
def py_float : PyVal → Option ℚ
  | .int n => some (n : ℚ)
  | .bool b => some (if b then 1 else 0)
  | _ => none

/-- Combined dict.get and float conversion used for the numeric fields of
a curated memory candidate. -/
def dict_get_float (kvs : List (String × PyVal)) (key : String) (default : ℚ) :
    Option ℚ :=
  match kvs.find? (fun kv => kv.1 == key) with
  | some kv => py_float kv.2
  | none => some default

/-- A curated memory candidate as built by _parse_curated_memories
(curator.py, lines 697 to 744); fields hold the parsed values, the two
numeric fields after float conversion. -/
structure CuratedMemory where
  content : PyVal
  importance_weight : ℚ
  semantic_tags : PyVal
  reasoning : PyVal
  context_type : PyVal
  temporal_relevance : PyVal
  knowledge_domain : PyVal
  dependency_context : PyVal
  action_required : PyVal
  confidence_score : ℚ
  trigger_phrases : PyVal
  anti_triggers : PyVal
  question_types : PyVal
  prerequisite_understanding : PyVal
  follow_up_context : PyVal
  emotional_resonance : PyVal
  problem_solution_pair : PyVal

/-- Construction and validation of one memory candidate (curator.py, lines
711 to 733): defaults for missing fields, float conversion of the two
numeric fields (a conversion failure skips the candidate), and the clamp
of importance_weight to the unit interval.  The source clamps only
importance_weight; confidence_score is stored as converted. -/
def parse_one_memory (kvs : List (String × PyVal)) : Option CuratedMemory :=
  match dict_get_float kvs "importance_weight" 0.5,
      dict_get_float kvs "confidence_score" 0.8 with
  | some iw, some cs =>
    some { content := dict_get kvs "content" (.str ""),
           importance_weight := max 0.0 (min 1.0 iw),
           semantic_tags := dict_get kvs "semantic_tags" (.list []),
           reasoning := dict_get kvs "reasoning" (.str ""),
           context_type := dict_get kvs "context_type" (.str "general"),
           temporal_relevance := dict_get kvs "temporal_relevance" (.str "persistent"),
           knowledge_domain := dict_get kvs "knowledge_domain" (.str ""),
           dependency_context := dict_get kvs "dependency_context" (.list []),
           action_required := dict_get kvs "action_required" (.bool false),
           confidence_score := cs,
           trigger_phrases := dict_get kvs "trigger_phrases" (.list []),
           anti_triggers := dict_get kvs "anti_triggers" (.list []),
           question_types := dict_get kvs "question_types" (.list []),
           prerequisite_understanding := dict_get kvs "prerequisite_understanding" (.list []),
           follow_up_context := dict_get kvs "follow_up_context" (.list []),
           emotional_resonance := dict_get kvs "emotional_resonance" (.str ""),
           problem_solution_pair := dict_get kvs "problem_solution_pair" (.bool false) }
  | _, _ => none

/-- Descending order on importance weight used by the final sort of
_parse_curated_memories. -/
def by_importance_desc (a b : CuratedMemory) : Bool :=
  b.importance_weight ≤ a.importance_weight

/-- Candidate extraction from a parsed value (curator.py, lines 700 to
744): a non array value yields no candidates, array elements that are not
objects or whose numeric fields fail conversion are skipped, and the
candidates are sorted by importance weight descending (stable, as Python
list.sort). -/
def parse_curated_memories_val : PyVal → List CuratedMemory
  | .list xs =>
    sort_stable by_importance_desc
      (xs.filterMap (fun x =>
        match x with
        | .dict kvs => parse_one_memory kvs
        | _ => none))
  | _ => []

/-- Translation of _parse_curated_memories (curator.py, lines 697 to 749):
parse the JSON string, then extract and validate the candidates. -/
def parse_curated_memories (memories_json : String) : List CuratedMemory :=
  match json_loads memories_json with
  | some v => parse_curated_memories_val v
  | none => []

/-- Parsed curation response: summary, tone, snapshot and memory
candidates. -/
structure CurationResult where
  session_summary : PyVal
  interaction_tone : PyVal
  project_snapshot : PyVal
  memories : List CuratedMemory

/-- The empty result shape returned when every parse strategy fails
(curator.py, line 695). -/
def empty_curation_result : CurationResult :=
  { session_summary := .str "", interaction_tone := .null,
    project_snapshot := .dict [], memories := [] }

/-- Field extraction applied to a successfully parsed response value
(curator.py, lines 614 to 637 and 669 to 691): a top level array is
treated as the memories array; a top level object is read with dict.get
and its memories entry, when truthy, is serialized and reparsed through
_parse_curated_memories; any other top level value raises AttributeError
at the first attribute access. -/
def extract_curation_result (v : PyVal) : Except PyErr CurationResult :=
  match v with
  | .list xs =>
    .ok { session_summary := .str "", interaction_tone := .null,
          project_snapshot := .dict [],
          memories := parse_curated_memories (json_dumps (.list xs)) }
  | .dict kvs =>
    let memories_data := dict_get kvs "memories" (.list [])
    .ok { session_summary := dict_get kvs "session_summary" (.str ""),
          interaction_tone := dict_get kvs "interaction_tone" .null,
          project_snapshot := dict_get kvs "project_snapshot" (.dict []),
          memories :=
            if truthy memories_data then
              parse_curated_memories (json_dumps memories_data)
            else [] }
  | _ => .error .attributeError

/-- Translation of _parse_curation_response (curator.py, lines 608 to 695):
strict JSON parse first (only a JSON decode failure reaches the fallback;
an AttributeError from the extraction propagates), then ast.literal_eval
with a dumps and loads round trip, then the regex quote fixes, and the
empty result shape when everything fails; every exception inside the
fallback is caught and also yields the empty result shape. -/
def parse_curation_response (response_json : String) : Except PyErr CurationResult :=
  match json_loads response_json with
  | some v => extract_curation_result v
  | none =>
    match ast_literal_eval response_json with
    | some obj =>
      (match json_loads (json_dumps obj) with
       | some v =>
         match extract_curation_result v with
         | .ok r => .ok r
         | .error _ => .ok empty_curation_result
       | none => .ok empty_curation_result)
    | none =>
      match json_loads (regex_quote_fix response_json) with
      | some v =>
        (match extract_curation_result v with
         | .ok r => .ok r
         | .error _ => .ok empty_curation_result)
      | none => .ok empty_curation_result

/-- Printable character safe for both quote dialects: no quotes, no
backslash, no control characters. -/
def safe_char (c : Char) : Bool :=
  32 ≤ c.toNat && c.toNat ≤ 126 && !(c == squote) && !(c == dquote) && !(c == '\\')

/-- String of safe characters. -/
def safe_str (s : String) : Bool := s.data.all safe_char

/-- Pairwise distinct strings. -/
def distinct_strs : List String → Bool
  | [] => true
  | s :: rest => !(rest.contains s) && distinct_strs rest

mutual

/-- Wellformed response value: safe strings throughout and distinct keys in
every object, matching what the curation agent contract produces. -/
def wf_val : PyVal → Bool
  | .int _ => true
  | .str s => safe_str s
  | .bool _ => true
  | .null => true
  | .list xs => wf_items xs
  | .dict kvs => wf_kvs kvs && distinct_strs (kvs.map Prod.fst)

/-- Wellformed array elements. -/
def wf_items : List PyVal → Bool
  | [] => true
  | x :: rest => wf_val x && wf_items rest

/-- Wellformed object entries. -/
def wf_kvs : List (String × PyVal) → Bool
  | [] => true
  | (k, v) :: rest => safe_str k && wf_val v && wf_kvs rest

end

/-- Input positions following a rendered value never start with a digit:
the continuation is empty or opens with a separator or closing bracket.
This keeps the maximal digit scan of the integer parser from crossing the
value boundary. -/
def not_digit_start : List Char → Bool
  | [] => true
  | c :: _ => !c.isDigit

/-- The rendering of the array elements after the first: comma space
before each element. -/
def items_cont (d : Bool) : List PyVal → List Char
  | [] => []
  | x :: rest => ',' :: ' ' :: render_val d x ++ items_cont d rest

/-- The rendering of the object entries after the first: comma space,
quoted key, colon space, value. -/
def kvs_cont (d : Bool) : List (String × PyVal) → List Char
  | [] => []
  | (k, v) :: rest =>
    ',' :: ' ' :: str_quote d :: k.data ++ str_quote d :: ':' :: ' ' ::
      render_val d v ++ kvs_cont d rest

mutual

/-- Fuel sufficient for the recursive descent parser on the rendering of a
value. -/
def need_val : PyVal → Nat
  | .int _ => 1
  | .str _ => 1
  | .bool _ => 1
  | .null => 1
  | .list xs => 1 + need_items xs
  | .dict kvs => 1 + need_kvs kvs

/-- Fuel sufficient for the array continuation parser. -/
def need_items : List PyVal → Nat
  | [] => 1
  | x :: rest => 1 + max (need_val x) (need_items rest)

/-- Fuel sufficient for the object continuation parser. -/
def need_kvs : List (String × PyVal) → Nat
  | [] => 1
  | (_, v) :: rest => 1 + max (need_val v) (need_kvs rest)

end

/- Part 7: checkpoint (memory.py, lines 81 to 229) and the storage effect
counters the claims consult. -/

/-- Storage effects of one checkpoint, counted: stored memories, session
summaries, project snapshots and the first session completion flag. -/
structure StorageState where
  stored_memories : Nat
  stored_summaries : Nat
  stored_snapshots : Nat
  first_session_completed : Bool
deriving DecidableEq, Repr

/-- Storage phase of checkpoint_session (memory.py, lines 132 to 225):
store the summary when truthy, store the snapshot when it is truthy and
some snapshot value is truthy (a truthy non dict snapshot raises
AttributeError at the values call, caught by the surrounding handler),
store every curated memory, and complete the first session when memories
were curated. -/
def checkpoint_store_phase (result : CurationResult) (storage : StorageState) :
    Except PyErr (Nat × StorageState) := do
  let storage1 :=
    if truthy result.session_summary then
      { storage with stored_summaries := storage.stored_summaries + 1 }
    else storage
  let snap_any ←
    if truthy result.project_snapshot then
      match result.project_snapshot with
      | .dict kvs => pure (kvs.any (fun kv => truthy kv.2))
      | _ => Except.error PyErr.attributeError
    else pure false
  let storage2 :=
    if snap_any then
      { storage1 with stored_snapshots := storage1.stored_snapshots + 1 }
    else storage1
  let storage3 :=
    { storage2 with stored_memories := storage2.stored_memories + result.memories.length }
  let storage4 :=
    if !result.memories.isEmpty && !storage3.first_session_completed then
      { storage3 with first_session_completed := true }
    else storage3
  pure (result.memories.length, storage4)

/-- Translation of MemoryEngine.checkpoint_session (memory.py, lines 81 to
229): without a CLI session id and without tracked messages the checkpoint
returns zero immediately; without a CLI session id it returns zero inside
the guarded block; otherwise the curation outcome (the result of
curator.curate_from_session, or the exception it raised) is consumed and
every exception anywhere in the guarded block is caught and turns into a
zero result with storage unchanged from the point of failure onward. -/
def checkpoint_session (message_count : Nat) (claude_session_id : Option String)
    (curation : Except PyErr CurationResult) (storage : StorageState) :
    Nat × StorageState :=
  if claude_session_id.isNone && message_count == 0 then (0, storage)
  else
    let body : Except PyErr (Nat × StorageState) :=
      match claude_session_id with
      | none => .ok (0, storage)
      | some _ => do
        let result ← curation
        checkpoint_store_phase result storage
    match body with
    | .ok r => r
    | .error _ => (0, storage)

/- Part 8: concrete sample inputs used by the evaluation theorems. -/

/-- The sample obligatory memory of the stage 1 scenario: action required,
basic relevance via tag and question match, weak everywhere else. -/
def sample_obligatory : Memory :=
  { id := 1, content := "foo memo", importance_weight := 0,
    confidence_score := 0, context_type := "general",
    temporal_relevance := "temporary", knowledge_domain := "",
    action_required := true, semantic_tags := "foo", trigger_phrases := "",
    question_types := "what", emotional_resonance := "",
    problem_solution_pair := false, has_embedding := false }

/-- The sample high importance memory of the scored stage scenario. -/
def sample_scored : Memory :=
  { id := 2, content := "bar memo", importance_weight := 0.95,
    confidence_score := 0.8, context_type := "general",
    temporal_relevance := "persistent", knowledge_domain := "",
    action_required := false, semantic_tags := "foo", trigger_phrases := "",
    question_types := "what", emotional_resonance := "",
    problem_solution_pair := false, has_embedding := false }

/-- The curated memory produced by parsing a candidate object carrying only
an importance_weight of 2: the weight is clamped to 1 and every other field
takes its documented default. -/
def sample_curated : CuratedMemory :=
  { content := .str "", importance_weight := 1, semantic_tags := .list [],
    reasoning := .str "", context_type := .str "general",
    temporal_relevance := .str "persistent", knowledge_domain := .str "",
    dependency_context := .list [], action_required := .bool false,
    confidence_score := 0.8, trigger_phrases := .list [],
    anti_triggers := .list [], question_types := .list [],
    prerequisite_understanding := .list [], follow_up_context := .list [],
    emotional_resonance := .str "", problem_solution_pair := .bool false }

/- Part 8b: the real valued cosine similarity of
_calculate_vector_similarity (retrieval_strategies.py, lines 273 to 300),
modeled over the reals since the source computes with floating point. -/

/-- Sum of pairwise products over the zipped vectors. -/
noncomputable def list_dot (v w : List ℝ) : ℝ :=
  ((v.zip w).map (fun p => p.1 * p.2)).sum

/-- Cosine similarity: zero for an empty vector or a zero norm product,
otherwise the dot product divided by the product of the norms. -/
noncomputable def cosine_similarity (v w : List ℝ) : ℝ :=
  if v = [] ∨ w = [] then 0
  else
    let dot := list_dot v w
    let norm1 := Real.sqrt (list_dot v v)
    let norm2 := Real.sqrt (list_dot w w)
    if norm1 * norm2 = 0 then 0 else dot / (norm1 * norm2)

/- Part 9: theorems.  General helper lemmas first, then the claim theorems
with their witnesses and counterexamples. -/

/-- A fold whose step never decreases the accumulator dominates its
start value. -/
theorem le_foldl_of_le_step {α : Type} (step : ℚ → α → ℚ)
    (h : ∀ a x, a ≤ step a x) : ∀ (l : List α) (a : ℚ), a ≤ l.foldl step a := by
  intro l
  induction l with
  | nil => intro a; simp
  | cons x xs ih => intro a; exact le_trans (h a x) (ih (step a x))

/-- The temporal sub-score lies between 0 and 0.8. -/
theorem score_temporal_relevance_bounds (t : String) :
    0 ≤ score_temporal_relevance t ∧ score_temporal_relevance t ≤ 0.8 := by
  unfold score_temporal_relevance
  split
  · norm_num
  · split
    · norm_num
    · split
      · norm_num
      · split <;> norm_num

/-- The context alignment sub-score lies between 0 and 1. -/
theorem score_context_alignment_bounds (msg ct : String) :
    0 ≤ score_context_alignment msg ct ∧ score_context_alignment msg ct ≤ 1 := by
  unfold score_context_alignment
  dsimp only
  by_cases h :
      ((context_indicators ct).filter (fun w => py_in w (py_lower msg))).length > 0
  · simp only [h, if_pos]
    refine ⟨le_min (by positivity) (by norm_num), (min_le_right _ _).trans (by norm_num)⟩
  · simp only [h, if_neg, if_false]
    norm_num

/-- The semantic tag sub-score lies between 0 and 1. -/
theorem score_semantic_tags_bounds (msg tags : String) :
    0 ≤ score_semantic_tags msg tags ∧ score_semantic_tags msg tags ≤ 1 := by
  unfold score_semantic_tags
  by_cases he : tags = ""
  · simp only [he, if_pos]
    norm_num
  · simp only [he, if_false]
    by_cases h : tag_match_count (py_lower msg) tags > 0
    · simp only [h, if_pos]
      refine ⟨le_min (by positivity) (by norm_num), (min_le_right _ _).trans (by norm_num)⟩
    · simp only [h, if_neg, if_false]
      norm_num

/-- A tag match in the stage 1 pre-check forces a semantic tag sub-score of
at least 0.6 in the full scoring pass. -/
theorem score_semantic_tags_of_check (msg tags : String)
    (h : check_tag_match tags msg = true) :
    0.6 ≤ score_semantic_tags msg tags := by
  unfold check_tag_match at h
  by_cases he : tags = ""
  · simp [he] at h
  · simp only [he, if_false] at h
    have hc : 1 ≤ tag_match_count (py_lower msg) tags := by simpa using h
    have hpos : tag_match_count (py_lower msg) tags > 0 := hc
    unfold score_semantic_tags
    simp only [he, if_false]
    simp only [hpos, if_pos]
    apply le_min
    · have h1 : (1 : ℚ) ≤ (tag_match_count (py_lower msg) tags : ℚ) := by
        exact_mod_cast hc
      nlinarith
    · norm_num

/-- The question type loop only returns values between 0 and 0.8. -/
theorem score_question_types_loop_bounds (ml : String) (l : List String) :
    0 ≤ score_question_types_loop ml l ∧ score_question_types_loop ml l ≤ 0.8 := by
  induction l with
  | nil =>
    unfold score_question_types_loop
    norm_num
  | cons q rest ih =>
    unfold score_question_types_loop
    dsimp only
    split
    · norm_num
    · split
      · norm_num
      · exact ih

/-- The question type sub-score lies between 0 and 0.8. -/
theorem score_question_types_bounds (msg qt : String) :
    0 ≤ score_question_types msg qt ∧ score_question_types msg qt ≤ 0.8 := by
  unfold score_question_types
  split
  · norm_num
  · exact score_question_types_loop_bounds _ _

/-- A matching question type somewhere in the list forces the loop to
return at least 0.5. -/
theorem score_question_types_loop_ge (ml : String) (l : List String)
    (h : l.any (fun q => py_in (py_lower (py_strip q)) ml) = true) :
    0.5 ≤ score_question_types_loop ml l := by
  induction l with
  | nil => simp at h
  | cons q rest ih =>
    unfold score_question_types_loop
    dsimp only
    split
    · norm_num
    · split
      · norm_num
      · rename_i hq _
        simp only [List.any_cons, Bool.or_eq_true] at h
        rcases h with h | h
        · exact absurd h (by simpa using hq)
        · exact ih h

/-- A question match in the stage 1 pre-check forces a question type
sub-score of at least 0.5 in the full scoring pass. -/
theorem score_question_types_of_check (msg qt : String)
    (h : check_question_match qt msg = true) :
    0.5 ≤ score_question_types msg qt := by
  unfold check_question_match at h
  split at h
  · simp at h
  · rename_i hcond
    have hne : qt ≠ "" := by
      intro hqe
      simp [hqe] at hcond
    unfold score_question_types
    simp only [hne, if_false]
    exact score_question_types_loop_ge _ _ h

/-- The emotional resonance sub-score is 0 or 0.7. -/
theorem score_emotional_context_bounds (msg emo : String) :
    0 ≤ score_emotional_context msg emo ∧ score_emotional_context msg emo ≤ 0.7 := by
  unfold score_emotional_context
  split
  · norm_num
  · split <;> norm_num

/-- The problem solution sub-score is 0 or 0.8. -/
theorem score_problem_solution_bounds (msg : String) (b : Bool) :
    0 ≤ score_problem_solution msg b ∧ score_problem_solution msg b ≤ 0.8 := by
  unfold score_problem_solution
  split
  · norm_num
  · split <;> norm_num

/-- The trigger phrase sub-score lies between 0 and 1. -/
theorem score_trigger_phrases_bounds (msg tp : String) :
    0 ≤ score_trigger_phrases msg tp ∧ score_trigger_phrases msg tp ≤ 1 := by
  unfold score_trigger_phrases
  split
  · norm_num
  · dsimp only
    refine ⟨le_min ?_ (by norm_num), (min_le_right _ _).trans (by norm_num)⟩
    apply le_foldl_of_le_step
    intro a x
    split
    · exact le_refl a
    · exact le_max_left a _

/-- Claim C8 counterexample: the temporal lookup table contains a fourth
entry, archived, mapping to 0.1, so the default 0.5 does not apply to
every value outside the three element enum. -/
theorem c8_counterexample :
    score_temporal_relevance "archived" = 0.1 ∧
      score_temporal_relevance "archived" ≠ 0.5 := by
  have h : score_temporal_relevance "archived" = 0.1 := by
    unfold score_temporal_relevance
    rw [if_neg (by decide), if_neg (by decide), if_neg (by decide), if_pos rfl]
  refine ⟨h, ?_⟩
  rw [h]
  norm_num

/-- Claim C8, amended: the temporal sub-score is 0.8 for persistent, 0.6
for session, 0.3 for temporary, 0.1 for archived, and 0.5 for every other
value. -/
theorem c8_temporal_lookup :
    score_temporal_relevance "persistent" = 0.8 ∧
    score_temporal_relevance "session" = 0.6 ∧
    score_temporal_relevance "temporary" = 0.3 ∧
    score_temporal_relevance "archived" = 0.1 ∧
    (∀ t : String, t ≠ "persistent" → t ≠ "session" → t ≠ "temporary" →
      t ≠ "archived" → score_temporal_relevance t = 0.5) := by
  refine ⟨?_, ?_, ?_, ?_, ?_⟩
  · unfold score_temporal_relevance
    rw [if_pos rfl]
  · unfold score_temporal_relevance
    rw [if_neg (by decide), if_pos rfl]
  · unfold score_temporal_relevance
    rw [if_neg (by decide), if_neg (by decide), if_pos rfl]
  · unfold score_temporal_relevance
    rw [if_neg (by decide), if_neg (by decide), if_neg (by decide), if_pos rfl]
  · intro t h1 h2 h3 h4
    unfold score_temporal_relevance
    rw [if_neg h1, if_neg h2, if_neg h3, if_neg h4]

/-- Witness for the amended claim C8 at the concrete value other. -/
theorem c8_witness : score_temporal_relevance "other" = 0.5 :=
  c8_temporal_lookup.2.2.2.2 "other" (by decide) (by decide) (by decide) (by decide)

/-- Cauchy Schwarz for finite sums with an absolute value. -/
theorem sum_mul_abs_le (s : Finset ℕ) (f g : ℕ → ℝ) :
    |∑ i ∈ s, f i * g i| ≤
      Real.sqrt (∑ i ∈ s, f i ^ 2) * Real.sqrt (∑ i ∈ s, g i ^ 2) := by
  rw [abs_le]
  constructor
  · have h := Real.sum_mul_le_sqrt_mul_sqrt s f (fun i => -g i)
    simp only [mul_neg, Finset.sum_neg_distrib, neg_sq] at h
    linarith
  · exact Real.sum_mul_le_sqrt_mul_sqrt s f g

/-- The list dot product as a finite sum over the common index range. -/
theorem list_dot_eq_sum (v w : List ℝ) :
    list_dot v w =
      ∑ i ∈ Finset.range (min v.length w.length), v.getD i 0 * w.getD i 0 := by
  induction v generalizing w with
  | nil => simp [list_dot]
  | cons a v ih =>
    cases w with
    | nil => simp [list_dot]
    | cons b w =>
      simp only [list_dot, List.zip_cons_cons, List.map_cons, List.sum_cons,
        List.length_cons]
      rw [Nat.succ_min_succ, Finset.sum_range_succ']
      simp only [List.getD_cons_succ, List.getD_cons_zero]
      have ihw := ih w
      unfold list_dot at ihw
      rw [ihw]
      ring

/-- The absolute dot product is bounded by the product of the norms. -/
theorem list_dot_abs_le (v w : List ℝ) :
    |list_dot v w| ≤ Real.sqrt (list_dot v v) * Real.sqrt (list_dot w w) := by
  rw [list_dot_eq_sum v w, list_dot_eq_sum v v, list_dot_eq_sum w w,
    min_self, min_self]
  have habs := sum_mul_abs_le (Finset.range (min v.length w.length))
    (fun i => v.getD i 0) (fun i => w.getD i 0)
  refine habs.trans ?_
  have hsq : ∀ (u : List ℝ) (n : Nat),
      (∑ i ∈ Finset.range n, u.getD i 0 * u.getD i 0) =
        ∑ i ∈ Finset.range n, u.getD i 0 ^ 2 := by
    intro u n
    apply Finset.sum_congr rfl
    intro i _
    ring
  rw [hsq v, hsq w]
  apply mul_le_mul
  · apply Real.sqrt_le_sqrt
    apply Finset.sum_le_sum_of_subset_of_nonneg
    · exact Finset.range_subset.mpr (Nat.min_le_left _ _)
    · intro i _ _
      positivity
  · apply Real.sqrt_le_sqrt
    apply Finset.sum_le_sum_of_subset_of_nonneg
    · exact Finset.range_subset.mpr (Nat.min_le_right _ _)
    · intro i _ _
      positivity
  · exact Real.sqrt_nonneg _
  · exact Real.sqrt_nonneg _

/-- The cosine similarity always lies between minus one and one. -/
theorem cosine_similarity_bounds (v w : List ℝ) :
    -1 ≤ cosine_similarity v w ∧ cosine_similarity v w ≤ 1 := by
  unfold cosine_similarity
  split
  · norm_num
  · dsimp only
    split
    · norm_num
    · rename_i h1 h2
      have hnn : 0 ≤ Real.sqrt (list_dot v v) * Real.sqrt (list_dot w w) :=
        mul_nonneg (Real.sqrt_nonneg _) (Real.sqrt_nonneg _)
      have hpos : 0 < Real.sqrt (list_dot v v) * Real.sqrt (list_dot w w) :=
        lt_of_le_of_ne hnn (Ne.symm h2)
      have habs := list_dot_abs_le v w
      rw [abs_le] at habs
      constructor
      · rw [le_div_iff₀ hpos]
        linarith
      · rw [div_le_one hpos]
        linarith

/-- Claim C2 counterexample: the similarity of the one dimensional
embeddings 1 and minus 1 is exactly minus 1, and a memory with that vector
similarity and no trigger, tag or question signal has a negative relevance
score, refuting the claimed lower bound of 0. -/
theorem c2_counterexample :
    cosine_similarity [(1 : ℝ)] [(-1 : ℝ)] = -1 ∧
    (scoreMemory "" (fun _ => -1)
      { id := 0, content := "", importance_weight := 0.5,
        confidence_score := 0.8, context_type := "", temporal_relevance := "",
        knowledge_domain := "", action_required := false, semantic_tags := "",
        trigger_phrases := "", question_types := "", emotional_resonance := "",
        problem_solution_pair := false, has_embedding := true }).relevance < 0 := by
  constructor
  · unfold cosine_similarity
    rw [if_neg (by simp)]
    have hd : list_dot [(1 : ℝ)] [(-1 : ℝ)] = -1 := by simp [list_dot]
    have hv : list_dot [(1 : ℝ)] [(1 : ℝ)] = 1 := by simp [list_dot]
    have hw : list_dot [(-1 : ℝ)] [(-1 : ℝ)] = 1 := by simp [list_dot]
    dsimp only
    rw [hd, hv, hw, Real.sqrt_one]
    norm_num
  · simp only [scoreMemory, memory_vector_score, relevance_score,
      score_trigger_phrases, score_semantic_tags, score_question_types,
      if_pos, if_true]
    norm_num

/-- Claim C2, amended: the cosine similarity ranges over the interval from
minus one to one, and for importance and confidence inside the unit
interval and a similarity inside that cosine range the scores satisfy
-0.1 <= relevance_score <= 0.3, 0 <= value_score <= 0.7 and
-0.1 <= final_score <= 1; the claimed lower bound 0 on relevance_score
(and hence on final_score) fails exactly when the cosine similarity is
negative. -/
theorem c2_amended :
    (∀ v w : List ℝ, -1 ≤ cosine_similarity v w ∧ cosine_similarity v w ≤ 1) ∧
    (∀ (message : String) (sim : Nat → ℚ) (m : Memory),
      0 ≤ m.importance_weight → m.importance_weight ≤ 1 →
      0 ≤ m.confidence_score → m.confidence_score ≤ 1 →
      -1 ≤ sim m.id → sim m.id ≤ 1 →
      -0.1 ≤ (scoreMemory message sim m).relevance ∧
        (scoreMemory message sim m).relevance ≤ 0.3 ∧
        0 ≤ (scoreMemory message sim m).value ∧
        (scoreMemory message sim m).value ≤ 0.7 ∧
        -0.1 ≤ (scoreMemory message sim m).score ∧
        (scoreMemory message sim m).score ≤ 1) := by
  constructor
  · exact cosine_similarity_bounds
  · intro message sim m hi0 hi1 hc0 hc1 hs0 hs1
    have hv : -1 ≤ memory_vector_score sim m ∧ memory_vector_score sim m ≤ 1 := by
      unfold memory_vector_score
      split
      · exact ⟨hs0, hs1⟩
      · norm_num
    have ht := score_trigger_phrases_bounds message m.trigger_phrases
    have htg := score_semantic_tags_bounds message m.semantic_tags
    have hq := score_question_types_bounds message m.question_types
    have htm := score_temporal_relevance_bounds m.temporal_relevance
    have hcx := score_context_alignment_bounds message m.context_type
    have hem := score_emotional_context_bounds message m.emotional_resonance
    have hpr := score_problem_solution_bounds message m.problem_solution_pair
    have ha : (0 : ℚ) ≤ (if m.action_required then (0.3 : ℚ) else 0.0) ∧
        (if m.action_required then (0.3 : ℚ) else 0.0) ≤ 0.3 := by
      split <;> norm_num
    simp only [scoreMemory, relevance_score, value_score]
    refine ⟨?_, ?_, ?_, ?_, ?_, ?_⟩ <;> linarith [ht.1, ht.2, htg.1, htg.2,
      hq.1, hq.2, htm.1, htm.2, hcx.1, hcx.2, hem.1, hem.2, hpr.1, hpr.2,
      ha.1, ha.2, hv.1, hv.2, hi0, hi1, hc0, hc1]

/-- Witness for the amended claim C2 at a concrete embedding pair and a
concrete memory. -/
theorem c2_witness :
    (-1 ≤ cosine_similarity [(2 : ℝ), 1] [(3 : ℝ)] ∧
      cosine_similarity [(2 : ℝ), 1] [(3 : ℝ)] ≤ 1) ∧
    (-0.1 ≤ (scoreMemory "hello" (fun _ => 0.5)
      { id := 7, content := "c", importance_weight := 0.9,
        confidence_score := 0.8, context_type := "general",
        temporal_relevance := "persistent", knowledge_domain := "",
        action_required := true, semantic_tags := "", trigger_phrases := "",
        question_types := "", emotional_resonance := "",
        problem_solution_pair := false, has_embedding := true }).relevance ∧
      (scoreMemory "hello" (fun _ => 0.5)
      { id := 7, content := "c", importance_weight := 0.9,
        confidence_score := 0.8, context_type := "general",
        temporal_relevance := "persistent", knowledge_domain := "",
        action_required := true, semantic_tags := "", trigger_phrases := "",
        question_types := "", emotional_resonance := "",
        problem_solution_pair := false, has_embedding := true }).relevance ≤ 0.3 ∧
      0 ≤ (scoreMemory "hello" (fun _ => 0.5)
      { id := 7, content := "c", importance_weight := 0.9,
        confidence_score := 0.8, context_type := "general",
        temporal_relevance := "persistent", knowledge_domain := "",
        action_required := true, semantic_tags := "", trigger_phrases := "",
        question_types := "", emotional_resonance := "",
        problem_solution_pair := false, has_embedding := true }).value ∧
      (scoreMemory "hello" (fun _ => 0.5)
      { id := 7, content := "c", importance_weight := 0.9,
        confidence_score := 0.8, context_type := "general",
        temporal_relevance := "persistent", knowledge_domain := "",
        action_required := true, semantic_tags := "", trigger_phrases := "",
        question_types := "", emotional_resonance := "",
        problem_solution_pair := false, has_embedding := true }).value ≤ 0.7 ∧
      -0.1 ≤ (scoreMemory "hello" (fun _ => 0.5)
      { id := 7, content := "c", importance_weight := 0.9,
        confidence_score := 0.8, context_type := "general",
        temporal_relevance := "persistent", knowledge_domain := "",
        action_required := true, semantic_tags := "", trigger_phrases := "",
        question_types := "", emotional_resonance := "",
        problem_solution_pair := false, has_embedding := true }).score ∧
      (scoreMemory "hello" (fun _ => 0.5)
      { id := 7, content := "c", importance_weight := 0.9,
        confidence_score := 0.8, context_type := "general",
        temporal_relevance := "persistent", knowledge_domain := "",
        action_required := true, semantic_tags := "", trigger_phrases := "",
        question_types := "", emotional_resonance := "",
        problem_solution_pair := false, has_embedding := true }).score ≤ 1) :=
  ⟨c2_amended.1 [(2 : ℝ), 1] [(3 : ℝ)],
   c2_amended.2 "hello" (fun _ => 0.5) _ (by norm_num) (by norm_num)
     (by norm_num) (by norm_num) (by norm_num) (by norm_num)⟩

/-- Membership in a stable insertion is membership in the inserted element
or the list. -/
theorem mem_insert_stable {α : Type} {le : α → α → Bool} {x y : α} {l : List α} :
    y ∈ insert_stable le x l ↔ y = x ∨ y ∈ l := by
  induction l with
  | nil => simp [insert_stable]
  | cons a t ih =>
    unfold insert_stable
    split
    · simp [List.mem_cons]
    · simp only [List.mem_cons, ih]
      tauto

/-- The stable sort preserves membership. -/
theorem mem_sort_stable {α : Type} {le : α → α → Bool} {l : List α} {x : α} :
    x ∈ sort_stable le l ↔ x ∈ l := by
  induction l with
  | nil => simp [sort_stable]
  | cons a t ih =>
    simp only [sort_stable, mem_insert_stable, ih, List.mem_cons]

/-- Repeatedly erasing elements keeps a sublist of the original list. -/
theorem foldl_erase_subset (items : List Scored) :
    ∀ l : List Scored, (items.foldl (fun acc it => acc.erase it) l) ⊆ l := by
  induction items with
  | nil =>
    intro l
    simp only [List.foldl_nil]
    exact fun x hx => hx
  | cons it rest ih =>
    intro l
    simp only [List.foldl_cons]
    exact (ih (l.erase it)).trans (List.erase_subset it l)

/-- Every memory produced by the tier 2 loop was already selected or comes
from the scored candidate list. -/
theorem tier2_mem {maxm : Nat} {x : Memory} :
    ∀ (l : List Scored) (sel : List Memory) (ids : List Nat) (types : List String),
      x ∈ (tier2 maxm l sel ids types).1 → x ∈ sel ∨ ∃ s ∈ l, s.memory = x := by
  intro l
  induction l with
  | nil =>
    intro sel ids types h
    exact .inl h
  | cons item rest ih =>
    intro sel ids types h
    unfold tier2 at h
    split at h
    · exact .inl h
    · split at h
      · rcases ih _ _ _ h with h1 | ⟨s, hs, he⟩
        · exact .inl h1
        · exact .inr ⟨s, List.mem_cons_of_mem _ hs, he⟩
      · split at h
        · rcases ih _ _ _ h with h1 | ⟨s, hs, he⟩
          · rcases List.mem_append.mp h1 with h3 | h4
            · exact .inl h3
            · exact .inr ⟨item, List.mem_cons_self _ _, (List.mem_singleton.mp h4).symm⟩
          · exact .inr ⟨s, List.mem_cons_of_mem _ hs, he⟩
        · rcases ih _ _ _ h with h1 | ⟨s, hs, he⟩
          · exact .inl h1
          · exact .inr ⟨s, List.mem_cons_of_mem _ hs, he⟩

/-- Every memory produced by the tier 3 loop was already selected or comes
from the scored candidate list. -/
theorem tier3_mem {maxm : Nat} {ct cd : List String} {x : Memory} :
    ∀ (l : List Scored) (sel : List Memory) (ids : List Nat),
      x ∈ (tier3 maxm ct cd l sel ids).1 → x ∈ sel ∨ ∃ s ∈ l, s.memory = x := by
  intro l
  induction l with
  | nil =>
    intro sel ids h
    exact .inl h
  | cons item rest ih =>
    intro sel ids h
    unfold tier3 at h
    split at h
    · exact .inl h
    · split at h
      · rcases ih _ _ h with h1 | ⟨s, hs, he⟩
        · exact .inl h1
        · exact .inr ⟨s, List.mem_cons_of_mem _ hs, he⟩
      · split at h
        · rcases ih _ _ h with h1 | ⟨s, hs, he⟩
          · rcases List.mem_append.mp h1 with h3 | h4
            · exact .inl h3
            · exact .inr ⟨item, List.mem_cons_self _ _, (List.mem_singleton.mp h4).symm⟩
          · exact .inr ⟨s, List.mem_cons_of_mem _ hs, he⟩
        · rcases ih _ _ h with h1 | ⟨s, hs, he⟩
          · exact .inl h1
          · exact .inr ⟨s, List.mem_cons_of_mem _ hs, he⟩

/-- The memory of a scoring pass entry is the scored memory. -/
theorem scoreMemory_memory (msg : String) (sim : Nat → ℚ) (m : Memory) :
    (scoreMemory msg sim m).memory = m := rfl

/-- A gate passing entry satisfies both gate bounds. -/
theorem passes_gate_bounds {s : Scored} (h : passes_gate s = true) :
    0.05 ≤ s.relevance ∧ 0.3 ≤ s.score := by
  unfold passes_gate at h
  simp only [Bool.not_eq_true', Bool.or_eq_false_iff, decide_eq_false_iff_not,
    not_lt] at h
  exact h

/-- A member of the gate passing list is the scoring pass applied to a pool
memory, and it passes the gate. -/
theorem gate_passing_mem {msg : String} {sim : Nat → ℚ} {pool : List Memory}
    {s : Scored} (h : s ∈ gate_passing msg sim pool) :
    s.memory ∈ pool ∧ s = scoreMemory msg sim s.memory ∧ passes_gate s = true := by
  unfold gate_passing at h
  obtain ⟨hmem, hgate⟩ := List.mem_filter.mp h
  obtain ⟨m, hm, he⟩ := List.mem_map.mp hmem
  have hmm : s.memory = m := by rw [← he, scoreMemory_memory]
  subst he
  rw [scoreMemory_memory] at hmm ⊢
  exact ⟨hmm ▸ hm, by rw [hmm], hgate⟩

/-- Every memory returned by the smart vector retrieval was scored, passed
the relevance gate and kept a final score of at least 0.3. -/
theorem retrieve_relevant_memories_gate {pool : List Memory} {msg : String}
    {sim : Nat → ℚ} {maxm : Nat} {x : Memory}
    (h : x ∈ retrieve_relevant_memories pool msg sim maxm) :
    x ∈ pool ∧ 0.05 ≤ (scoreMemory msg sim x).relevance ∧
      0.3 ≤ (scoreMemory msg sim x).score := by
  unfold retrieve_relevant_memories at h
  split at h
  · simp at h
  · dsimp only at h
    have hx := List.take_subset _ _ h
    have hscored :
        ∀ y : Memory,
          (∃ s ∈ sort_stable by_score_desc (gate_passing msg sim pool), s.memory = y) →
          y ∈ pool ∧ 0.05 ≤ (scoreMemory msg sim y).relevance ∧
            0.3 ≤ (scoreMemory msg sim y).score := by
      intro y ⟨s, hs, he⟩
      have hgp := mem_sort_stable.mp hs
      obtain ⟨hpool, hself, hgate⟩ := gate_passing_mem hgp
      have hb := passes_gate_bounds hgate
      rw [he] at hpool hself
      rw [hself] at hb
      exact ⟨hpool, hb.1, hb.2⟩
    -- trace x back through the tiers
    have hrem :
        (((sort_stable by_score_desc (gate_passing msg sim pool)).filter
            is_critical).take maxm).foldl (fun l item => l.erase item)
            (sort_stable by_score_desc (gate_passing msg sim pool)) ⊆
          sort_stable by_score_desc (gate_passing msg sim pool) :=
      foldl_erase_subset _ _
    have hsel1 :
        ∀ y ∈ (((sort_stable by_score_desc (gate_passing msg sim pool)).filter
            is_critical).take maxm).map Scored.memory,
          ∃ s ∈ sort_stable by_score_desc (gate_passing msg sim pool), s.memory = y := by
      intro y hy
      obtain ⟨s, hs, he⟩ := List.mem_map.mp hy
      exact ⟨s, List.mem_of_mem_filter (List.take_subset _ _ hs), he⟩
    set scored := sort_stable by_score_desc (gate_passing msg sim pool) with hsc
    set must := (scored.filter is_critical).take maxm with hmu
    set rem := must.foldl (fun l item => l.erase item) scored with hre
    set step2 :=
      if (must.map Scored.memory).length < maxm ∧
          ((must.map Scored.memory).length : ℚ) < (maxm : ℚ) * 1.5 then
        tier2 maxm rem (must.map Scored.memory) (must.map (fun s => s.memory.id)) []
      else (must.map Scored.memory, must.map (fun s => s.memory.id)) with hs2
    have hstep2 : ∀ y ∈ step2.1, ∃ s ∈ scored, s.memory = y := by
      intro y hy
      rw [hs2] at hy
      split at hy
      · rcases tier2_mem _ _ _ _ hy with h1 | ⟨s, hs, he⟩
        · exact hsel1 y h1
        · exact ⟨s, hrem hs, he⟩
      · exact hsel1 y hy
    apply hscored
    split at hx
    · rcases tier3_mem _ _ _ hx with h1 | ⟨s, hs, he⟩
      · exact hstep2 x h1
      · exact ⟨s, hrem hs, he⟩
    · exact hstep2 x hx

/-- Every memory collected by the stage 1 loop was in the accumulator or
qualifies for stage 1 (in particular it passes the basic relevance
pre-check). -/
theorem stage1_loop_sound {msg : String} {sim : Nat → ℚ} {injected : List Nat}
    {x : Memory} :
    ∀ (l : List Memory) (sel : List Nat) (acc : List Memory),
      x ∈ stage1_loop msg sim injected l sel acc →
      x ∈ acc ∨ stage1_qualifies x msg sim = true := by
  intro l
  induction l with
  | nil =>
    intro sel acc h
    exact .inl h
  | cons m rest ih =>
    intro sel acc h
    unfold stage1_loop at h
    split at h
    · exact ih _ _ h
    · split at h
      · rename_i hq
        have hmem : x ∈ acc ++ [m] → x ∈ acc ∨ stage1_qualifies x msg sim = true := by
          intro hx
          rcases List.mem_append.mp hx with h1 | h2
          · exact .inl h1
          · have : x = m := List.mem_singleton.mp h2
            subst this
            exact .inr (by
              have := hq
              exact (Bool.and_eq_true _ _).mp this |>.1)
        dsimp only at h
        split at h
        · exact hmem h
        · rcases ih _ _ h with h1 | h2
          · exact hmem h1
          · exact .inr h2
      · exact ih _ _ h

/-- Passing the stage 1 basic relevance pre-check forces a full scoring
relevance of at least 0.05, provided the vector similarity is not
negative. -/
theorem basic_relevance_full_relevance {m : Memory} {msg : String} {sim : Nat → ℚ}
    (hb : calculate_basic_relevance m msg sim = true)
    (hv : 0 ≤ memory_vector_score sim m) :
    0.05 ≤ (scoreMemory msg sim m).relevance := by
  unfold calculate_basic_relevance at hb
  simp only [ge_iff_le, decide_eq_true_eq] at hb
  unfold basic_relevance_score at hb
  have ht := score_trigger_phrases_bounds msg m.trigger_phrases
  have htg := score_semantic_tags_bounds msg m.semantic_tags
  have hq := score_question_types_bounds msg m.question_types
  simp only [scoreMemory, relevance_score]
  by_cases c1 : m.trigger_phrases ≠ "" ∧ check_trigger_match m.trigger_phrases msg = true
  · have hT : 0.5 < score_trigger_phrases msg m.trigger_phrases := by
      have h2 := c1.2
      unfold check_trigger_match at h2
      simpa [decide_eq_true_eq] using h2
    linarith [htg.1, hq.1, hv]
  · by_cases c2 : m.has_embedding = true ∧ 0.7 < memory_vector_score sim m
    · linarith [ht.1, htg.1, hq.1, c2.2]
    · rw [if_neg c1, if_neg (by simpa [gt_iff_lt] using c2)] at hb
      by_cases c3 : m.semantic_tags ≠ "" ∧ check_tag_match m.semantic_tags msg = true
      · by_cases c4 : m.question_types ≠ "" ∧ check_question_match m.question_types msg = true
        · have hG := score_semantic_tags_of_check msg m.semantic_tags c3.2
          have hQ := score_question_types_of_check msg m.question_types c4.2
          linarith [ht.1, hv]
        · rw [if_pos c3, if_neg c4] at hb
          norm_num at hb
      · rw [if_neg c3] at hb
        by_cases c4 : m.question_types ≠ "" ∧ check_question_match m.question_types msg = true
        · rw [if_pos c4] at hb
          norm_num at hb
        · rw [if_neg c4] at hb
          norm_num at hb

/-- Claim C1, amended.  First conjunct: the gate of the scored stage holds
unconditionally, every memory returned by the smart vector retrieval has
full relevance at least 0.05 and final score at least 0.3.  Second
conjunct: every memory returned by the whole two stage pipeline has full
relevance at least 0.05 whenever its vector similarity is not negative
(the stage 1 pre-check guarantees this); the final score half of the gate
does not extend to stage 1, as the counterexample shows. -/
theorem c1_amended :
    (∀ (pool : List Memory) (msg : String) (sim : Nat → ℚ) (maxm : Nat) (x : Memory),
      x ∈ retrieve_relevant_memories pool msg sim maxm →
      0.05 ≤ (scoreMemory msg sim x).relevance ∧
        0.3 ≤ (scoreMemory msg sim x).score) ∧
    (∀ (pool : List Memory) (injected : List Nat) (msg : String) (sim : Nat → ℚ)
      (x : Memory),
      x ∈ (get_relevant_memories_for_context pool injected msg sim).1 →
      0 ≤ memory_vector_score sim x →
      0.05 ≤ (scoreMemory msg sim x).relevance) := by
  constructor
  · intro pool msg sim maxm x h
    exact (retrieve_relevant_memories_gate h).2
  · intro pool injected msg sim x h hv
    unfold get_relevant_memories_for_context at h
    split at h
    · simp at h
    · dsimp only at h
      rcases List.mem_append.mp h with h1 | h2
      · rcases stage1_loop_sound _ _ _ h1 with h3 | h3
        · simp at h3
        · have hb : calculate_basic_relevance x msg sim = true :=
            ((Bool.and_eq_true _ _).mp h3).1
          exact basic_relevance_full_relevance hb hv
      · split at h2
        · exact ((retrieve_relevant_memories_gate h2).2).1
        · simp at h2

/-- Evaluation: empty trigger phrases score 0. -/
theorem score_trigger_empty (msg : String) : score_trigger_phrases msg "" = 0 := by
  unfold score_trigger_phrases
  rw [if_pos rfl]

/-- Evaluation: empty emotional resonance scores 0. -/
theorem score_emotion_empty (msg : String) : score_emotional_context msg "" = 0 := by
  unfold score_emotional_context
  rw [if_pos rfl]

/-- Evaluation: no problem solution pair scores 0. -/
theorem score_problem_false (msg : String) : score_problem_solution msg false = 0 := by
  unfold score_problem_solution
  rw [if_pos (by decide)]

/-- Evaluation: the tag foo scores 0.6 against the sample question. -/
theorem score_tags_foo_eval : score_semantic_tags "what is foo?" "foo" = 0.6 := by
  unfold score_semantic_tags
  rw [if_neg (by decide)]
  dsimp only
  rw [show tag_match_count (py_lower "what is foo?") "foo" = 1 from by decide]
  rw [if_pos (by decide)]
  rw [min_eq_left (by norm_num)]
  norm_num

/-- Evaluation: the question type what scores 0.8 against the sample
question. -/
theorem score_q_what_eval : score_question_types "what is foo?" "what" = 0.8 := by
  unfold score_question_types
  rw [if_neg (by decide)]
  rw [show py_split_comma "what" = ["what"] from by decide]
  unfold score_question_types_loop
  rw [if_pos (by decide)]

/-- Evaluation: the context type general aligns at the floor value 0.1. -/
theorem score_context_general_eval (msg : String) :
    score_context_alignment msg "general" = 0.1 := by
  unfold score_context_alignment
  rw [show context_indicators "general" = [] from by decide]
  simp

/-- Evaluation: the temporal value temporary scores 0.3. -/
theorem score_temporal_temporary_eval : score_temporal_relevance "temporary" = 0.3 := by
  unfold score_temporal_relevance
  rw [if_neg (by decide), if_neg (by decide), if_pos rfl]

/-- Evaluation: the temporal value persistent scores 0.8. -/
theorem score_temporal_persistent_eval : score_temporal_relevance "persistent" = 0.8 := by
  unfold score_temporal_relevance
  rw [if_pos rfl]

/-- Evaluation: the basic relevance score of the sample obligatory memory
on the sample question is exactly 0.3. -/
theorem sample_obligatory_basic :
    basic_relevance_score sample_obligatory "what is foo?" (fun _ => 0) = 0.3 := by
  unfold basic_relevance_score sample_obligatory
  rw [if_neg (fun hc => hc.1 rfl)]
  rw [if_neg (fun hc => absurd hc.1 (by decide))]
  rw [if_pos ⟨by decide, by decide⟩]
  rw [if_pos ⟨by decide, by decide⟩]
  norm_num

/-- Evaluation: the sample obligatory memory passes the stage 1 pre-check. -/
theorem sample_obligatory_relevant :
    calculate_basic_relevance sample_obligatory "what is foo?" (fun _ => 0) = true := by
  unfold calculate_basic_relevance
  rw [sample_obligatory_basic]
  simp only [ge_iff_le, decide_eq_true_eq]
  norm_num

/-- Evaluation: the sample obligatory memory qualifies for stage 1. -/
theorem sample_obligatory_qualifies :
    stage1_qualifies sample_obligatory "what is foo?" (fun _ => 0) = true := by
  unfold stage1_qualifies
  rw [sample_obligatory_relevant]
  simp [sample_obligatory]

/-- Evaluation: stage 1 on the singleton pool selects the sample obligatory
memory. -/
theorem sample_stage1_eval :
    stage1_loop "what is foo?" (fun _ => 0) [] [sample_obligatory] [] [] =
      [sample_obligatory] := by
  unfold stage1_loop
  rw [if_neg (by decide)]
  rw [if_pos (by rw [sample_obligatory_qualifies]; decide)]
  dsimp only
  rw [if_neg (by decide)]
  rfl

/-- Evaluation: the whole two stage pipeline on the singleton pool returns
exactly the sample obligatory memory. -/
theorem sample_pipeline_eval :
    (get_relevant_memories_for_context [sample_obligatory] [] "what is foo?"
      (fun _ => 0)).1 = [sample_obligatory] := by
  unfold get_relevant_memories_for_context
  rw [if_neg (by decide)]
  dsimp only
  rw [sample_stage1_eval]
  rw [if_pos (by decide)]
  rw [show ([sample_obligatory].filter
      (fun m => !(([sample_obligatory].map (fun x => x.id)).contains m.id) &&
        !(([] : List Nat).contains m.id))) = [] from by decide]
  rfl

/-- Evaluation: the final score of the sample obligatory memory is 0.125,
well below the 0.3 gate. -/
theorem sample_obligatory_score :
    (scoreMemory "what is foo?" (fun _ => 0) sample_obligatory).score = 0.125 := by
  simp only [scoreMemory, sample_obligatory, memory_vector_score,
    score_trigger_empty, score_tags_foo_eval, score_q_what_eval,
    score_context_general_eval, score_temporal_temporary_eval,
    score_emotion_empty, score_problem_false, value_score, relevance_score,
    if_true, if_false, Bool.false_eq_true]
  norm_num

/-- Evaluation: the importance component of the sample scored memory. -/
theorem sample_scored_importance :
    (scoreMemory "what is foo?" (fun _ => 0) sample_scored).importance = 0.95 := rfl

/-- Evaluation: the relevance score of the sample scored memory is 0.07. -/
theorem sample_scored_relevance :
    (scoreMemory "what is foo?" (fun _ => 0) sample_scored).relevance = 0.07 := by
  simp only [scoreMemory, sample_scored, memory_vector_score,
    score_trigger_empty, score_tags_foo_eval, score_q_what_eval,
    relevance_score, Bool.false_eq_true, if_false]
  norm_num

/-- Evaluation: the final score of the sample scored memory is 0.43. -/
theorem sample_scored_score :
    (scoreMemory "what is foo?" (fun _ => 0) sample_scored).score = 0.43 := by
  simp only [scoreMemory, sample_scored, memory_vector_score,
    score_trigger_empty, score_tags_foo_eval, score_q_what_eval,
    score_context_general_eval, score_temporal_persistent_eval,
    score_emotion_empty, score_problem_false, value_score, relevance_score,
    Bool.false_eq_true, if_false]
  norm_num

/-- Evaluation: the sample scored memory passes the relevance gate. -/
theorem sample_scored_gate :
    passes_gate (scoreMemory "what is foo?" (fun _ => 0) sample_scored) = true := by
  have h1 : ¬((scoreMemory "what is foo?" (fun _ => 0) sample_scored).relevance < 0.05) := by
    rw [sample_scored_relevance]
    norm_num
  have h2 : ¬((scoreMemory "what is foo?" (fun _ => 0) sample_scored).score < 0.3) := by
    rw [sample_scored_score]
    norm_num
  unfold passes_gate
  rw [decide_eq_false h1, decide_eq_false h2]
  rfl

/-- Evaluation: the sample scored memory is tier 1 critical through its
importance above 0.9. -/
theorem sample_scored_critical :
    is_critical (scoreMemory "what is foo?" (fun _ => 0) sample_scored) = true := by
  have him : decide ((scoreMemory "what is foo?" (fun _ => 0) sample_scored).importance > 0.9) = true :=
    decide_eq_true (by rw [sample_scored_importance]; norm_num)
  unfold is_critical
  rw [him]
  simp

/-- Evaluation: the smart vector retrieval on the singleton pool returns
exactly the sample scored memory. -/
theorem sample_retrieve_eval :
    retrieve_relevant_memories [sample_scored] "what is foo?" (fun _ => 0) 5 =
      [sample_scored] := by
  unfold retrieve_relevant_memories
  rw [if_neg (by decide)]
  dsimp only
  rw [show gate_passing "what is foo?" (fun _ => 0) [sample_scored] =
      [scoreMemory "what is foo?" (fun _ => 0) sample_scored] from by
    unfold gate_passing
    rw [List.map_cons, List.map_nil, List.filter_cons_of_pos sample_scored_gate,
      List.filter_nil]]
  norm_num [sort_stable, insert_stable, List.filter_cons, sample_scored_critical,
    tier2, tier3, List.erase_cons_head, scoreMemory_memory]

/-- Claim C1 counterexample: the sample obligatory memory (action required,
importance 0, confidence 0, temporary) is returned by the retrieval
pipeline although its final score 0.125 is far below the 0.3 gate, so the
final score half of the gate does not hold for the Stage 1 obligatory
tier. -/
theorem c1_counterexample :
    sample_obligatory ∈ (get_relevant_memories_for_context [sample_obligatory] []
      "what is foo?" (fun _ => 0)).1 ∧
    (scoreMemory "what is foo?" (fun _ => 0) sample_obligatory).score < 0.3 := by
  constructor
  · rw [sample_pipeline_eval]
    exact List.mem_singleton.mpr rfl
  · rw [sample_obligatory_score]
    norm_num

/-- Witness for the amended claim C1: the scored stage memory satisfies
both gate bounds, and the stage 1 memory satisfies the relevance bound. -/
theorem c1_witness :
    (0.05 ≤ (scoreMemory "what is foo?" (fun _ => 0) sample_scored).relevance ∧
      0.3 ≤ (scoreMemory "what is foo?" (fun _ => 0) sample_scored).score) ∧
    0.05 ≤ (scoreMemory "what is foo?" (fun _ => 0) sample_obligatory).relevance :=
  ⟨c1_amended.1 [sample_scored] "what is foo?" (fun _ => 0) 5 sample_scored
      (by rw [sample_retrieve_eval]; exact List.mem_singleton.mpr rfl),
   c1_amended.2 [sample_obligatory] [] "what is foo?" (fun _ => 0) sample_obligatory
      (by rw [sample_pipeline_eval]; exact List.mem_singleton.mpr rfl)
      (by rw [show memory_vector_score (fun _ => 0) sample_obligatory = 0 from by
              unfold memory_vector_score
              rw [if_neg (by decide)]])⟩

/-- The stage 1 loop only ever extends its accumulator. -/
theorem stage1_loop_mono {msg : String} {sim : Nat → ℚ} {injected : List Nat} :
    ∀ (l : List Memory) (sel : List Nat) (acc : List Memory) {x : Memory},
      x ∈ acc → x ∈ stage1_loop msg sim injected l sel acc := by
  intro l
  induction l with
  | nil =>
    intro sel acc x hx
    exact hx
  | cons m rest ih =>
    intro sel acc x hx
    unfold stage1_loop
    split
    · exact ih _ _ hx
    · split
      · dsimp only
        split
        · exact List.mem_append.mpr (.inl hx)
        · exact ih _ _ (List.mem_append.mpr (.inl hx))
      · exact ih _ _ hx

/-- Insertion lemma for stage 1: an action required memory that passes the
basic relevance pre-check, is not yet injected, whose id does not occur
earlier in the pool, is collected whenever the run over the earlier pool
entries collects fewer than three memories. -/
theorem stage1_loop_insert {msg : String} {sim : Nat → ℚ} {injected : List Nat}
    {m : Memory} {post : List Memory}
    (hq : stage1_qualifies m msg sim = true)
    (hinj : injected.contains m.id = false) :
    ∀ (pre : List Memory) (sel : List Nat) (acc : List Memory),
      sel = acc.map (fun x => x.id) →
      m.id ∉ sel →
      m.id ∉ pre.map (fun x => x.id) →
      (stage1_loop msg sim injected pre sel acc).length < 3 →
      m ∈ stage1_loop msg sim injected (pre ++ m :: post) sel acc := by
  intro pre
  induction pre with
  | nil =>
    intro sel acc _ hm _ hlen
    have hlen2 : acc.length < 3 := hlen
    show m ∈ stage1_loop msg sim injected (m :: post) sel acc
    unfold stage1_loop
    rw [if_neg (by rw [hinj]; exact Bool.false_ne_true)]
    rw [if_pos (by
      rw [hq]
      simp only [Bool.true_and, Bool.not_eq_true']
      simpa using hm)]
    dsimp only
    split
    · exact List.mem_append.mpr (.inr (List.mem_singleton.mpr rfl))
    · exact stage1_loop_mono _ _ _ (List.mem_append.mpr (.inr (List.mem_singleton.mpr rfl)))
  | cons p rest ih =>
    intro sel acc hsel hm hpre hlen
    have hmp : m.id ≠ p.id ∧ m.id ∉ rest.map (fun x => x.id) := by
      simp only [List.map_cons, List.mem_cons, not_or] at hpre
      exact hpre
    show m ∈ stage1_loop msg sim injected (p :: (rest ++ m :: post)) sel acc
    unfold stage1_loop
    unfold stage1_loop at hlen
    by_cases h1 : injected.contains p.id = true
    · rw [if_pos h1] at hlen ⊢
      exact ih _ _ hsel hm hmp.2 hlen
    · rw [if_neg h1] at hlen ⊢
      by_cases h2 : (stage1_qualifies p msg sim && !(sel.contains p.id)) = true
      · rw [if_pos h2] at hlen ⊢
        dsimp only at hlen ⊢
        by_cases h3 : (acc ++ [p]).length ≥ 3
        · rw [if_pos h3] at hlen
          exact absurd hlen (by omega)
        · rw [if_neg h3] at hlen ⊢
          apply ih (sel ++ [p.id]) (acc ++ [p])
          · rw [hsel]
            simp
          · simp only [List.mem_append, List.mem_singleton, not_or]
            exact ⟨hm, hmp.1⟩
          · exact hmp.2
          · exact hlen
      · rw [if_neg h2] at hlen ⊢
        exact ih _ _ hsel hm hmp.2 hlen

/-- A memory collected by stage 1 is part of the final selection of the two
stage pipeline. -/
theorem get_relevant_stage1_mem {pool : List Memory} {injected : List Nat}
    {msg : String} {sim : Nat → ℚ} {m : Memory} (hpool : ¬ pool = [])
    (h : m ∈ stage1_loop msg sim injected pool [] []) :
    m ∈ (get_relevant_memories_for_context pool injected msg sim).1 := by
  unfold get_relevant_memories_for_context
  rw [if_neg hpool]
  dsimp only
  exact List.mem_append.mpr (.inl h)

/-- Claim C4, as stated: an action required memory that passes the basic
relevance pre-check, has not been injected, carries a fresh id and is
preceded by fewer than three obligatory selections in iteration order is
included in the Stage 1 obligatory tier of the returned selection. -/
theorem c4_obligatory_inclusion :
    ∀ (pre post : List Memory) (m : Memory) (injected : List Nat) (msg : String)
      (sim : Nat → ℚ),
      m.action_required = true →
      calculate_basic_relevance m msg sim = true →
      injected.contains m.id = false →
      m.id ∉ pre.map (fun x => x.id) →
      (stage1_loop msg sim injected pre [] []).length < 3 →
      m ∈ stage1_loop msg sim injected (pre ++ m :: post) [] [] ∧
      m ∈ (get_relevant_memories_for_context (pre ++ m :: post) injected msg sim).1 := by
  intro pre post m injected msg sim hact hrel hinj hpre hlen
  have hq : stage1_qualifies m msg sim = true := by
    unfold stage1_qualifies
    rw [hrel, hact]
    simp
  have hst := @stage1_loop_insert msg sim injected m post hq hinj pre [] [] rfl
    (by simp) hpre hlen
  exact ⟨hst, get_relevant_stage1_mem (by simp) hst⟩

/-- Witness for claim C4 at the sample obligatory memory with an empty
preceding pool. -/
theorem c4_witness :
    sample_obligatory ∈ stage1_loop "what is foo?" (fun _ => 0) []
      ([] ++ sample_obligatory :: []) [] [] ∧
    sample_obligatory ∈ (get_relevant_memories_for_context
      ([] ++ sample_obligatory :: []) [] "what is foo?" (fun _ => 0)).1 :=
  c4_obligatory_inclusion [] [] sample_obligatory [] "what is foo?" (fun _ => 0)
    rfl sample_obligatory_relevant rfl (by simp) (by decide)

/-- Every memory collected by the stage 1 loop was in the accumulator or is
not yet injected. -/
theorem stage1_loop_not_injected {msg : String} {sim : Nat → ℚ}
    {injected : List Nat} {x : Memory} :
    ∀ (l : List Memory) (sel : List Nat) (acc : List Memory),
      x ∈ stage1_loop msg sim injected l sel acc →
      x ∈ acc ∨ injected.contains x.id = false := by
  intro l
  induction l with
  | nil =>
    intro sel acc h
    exact .inl h
  | cons m rest ih =>
    intro sel acc h
    unfold stage1_loop at h
    split at h
    · exact ih _ _ h
    · rename_i hninj
      have hm : injected.contains m.id = false := by
        rw [← Bool.not_eq_true]
        exact hninj
      split at h
      · dsimp only at h
        have hacc : x ∈ acc ++ [m] → x ∈ acc ∨ injected.contains x.id = false := by
          intro hx
          rcases List.mem_append.mp hx with h1 | h2
          · exact .inl h1
          · have := List.mem_singleton.mp h2
            subst this
            exact .inr hm
        split at h
        · exact hacc h
        · rcases ih _ _ h with h1 | h2
          · exact hacc h1
          · exact .inr h2
      · exact ih _ _ h

/-- Every memory returned by the two stage pipeline is not in the injected
set the call started from. -/
theorem get_relevant_not_injected {pool : List Memory} {injected : List Nat}
    {msg : String} {sim : Nat → ℚ} {x : Memory}
    (h : x ∈ (get_relevant_memories_for_context pool injected msg sim).1) :
    injected.contains x.id = false := by
  unfold get_relevant_memories_for_context at h
  split at h
  · simp at h
  · dsimp only at h
    rcases List.mem_append.mp h with h1 | h2
    · rcases stage1_loop_not_injected _ _ _ h1 with h3 | h3
      · simp at h3
      · exact h3
    · split at h2
      · have hx := (retrieve_relevant_memories_gate h2).1
        have hf := List.mem_filter.mp hx
        have hb := hf.2
        simp only [Bool.and_eq_true, Bool.not_eq_true'] at hb
        exact hb.2
      · simp at h2

/-- The injected set update never removes ids. -/
theorem add_ids_superset :
    ∀ (final : List Memory) (inj : List Nat),
      ∀ a ∈ inj, a ∈ final.foldl
        (fun inj m => if inj.contains m.id then inj else inj ++ [m.id]) inj := by
  intro final
  induction final with
  | nil =>
    intro inj a ha
    exact ha
  | cons m rest ih =>
    intro inj a ha
    simp only [List.foldl_cons]
    apply ih
    split
    · exact ha
    · exact List.mem_append.mpr (.inl ha)

/-- The injected set update records the id of every listed memory. -/
theorem add_ids_mem :
    ∀ (final : List Memory) (inj : List Nat) (x : Memory), x ∈ final →
      x.id ∈ final.foldl
        (fun inj m => if inj.contains m.id then inj else inj ++ [m.id]) inj := by
  intro final
  induction final with
  | nil =>
    intro inj x hx
    simp at hx
  | cons m rest ih =>
    intro inj x hx
    simp only [List.foldl_cons]
    rcases List.mem_cons.mp hx with h1 | h2
    · subst h1
      apply add_ids_superset rest _
      split
      · rename_i hc
        simpa using hc
      · exact List.mem_append.mpr (.inr (by simp))
    · exact ih _ _ h2

/-- The pipeline state update keeps every old id and adds every returned
id. -/
theorem get_relevant_injected (pool : List Memory) (injected : List Nat)
    (msg : String) (sim : Nat → ℚ) :
    (∀ a ∈ injected, a ∈ (get_relevant_memories_for_context pool injected msg sim).2) ∧
    (∀ x ∈ (get_relevant_memories_for_context pool injected msg sim).1,
      x.id ∈ (get_relevant_memories_for_context pool injected msg sim).2) := by
  unfold get_relevant_memories_for_context
  split
  · exact ⟨fun a ha => ha, fun x hx => by simp at hx⟩
  · dsimp only
    exact ⟨fun a ha => add_ids_superset _ _ a ha, fun x hx => add_ids_mem _ _ x hx⟩

/-- Branch equation: the primer branch of get_context_for_session. -/
theorem get_context_primer_branch {meta : SessionMeta} {fs : Bool}
    {pool : List Memory} {msg : String} {sim : Nat → ℚ}
    (h : fs = false ∧ meta.message_count = 0) :
    get_context_for_session meta fs pool msg sim = (.error .typeError, meta) := by
  unfold get_context_for_session
  rw [if_pos h]
  rfl

/-- Branch equation: the first session branch of get_context_for_session. -/
theorem get_context_first_branch {meta : SessionMeta} {pool : List Memory}
    {msg : String} {sim : Nat → ℚ} :
    get_context_for_session meta true pool msg sim =
      (.ok ⟨meta.message_count, []⟩, meta) := by
  unfold get_context_for_session
  rw [if_neg (show ¬((true = false) ∧ meta.message_count = 0) from
    fun hc => by simp at hc)]
  rw [if_pos rfl]

/-- Branch equation: the retrieval branch of get_context_for_session. -/
theorem get_context_retrieval_branch {meta : SessionMeta} {pool : List Memory}
    {msg : String} {sim : Nat → ℚ} (h : ¬ meta.message_count = 0) :
    get_context_for_session meta false pool msg sim =
      (.ok ⟨meta.message_count,
        (get_relevant_memories_for_context pool meta.injected_memories msg sim).1⟩,
       { meta with injected_memories :=
          (get_relevant_memories_for_context pool meta.injected_memories msg sim).2 }) := by
  unfold get_context_for_session
  rw [if_neg (show ¬((false = false) ∧ meta.message_count = 0) from
    fun hc => h hc.2)]
  rw [if_neg (show ¬(false = true) from by simp)]

/-- One engine call never removes ids from the session injected set. -/
theorem run_call_mono (meta : SessionMeta) (c : EngineCall) :
    ∀ a ∈ meta.injected_memories, a ∈ (run_call meta c).2.injected_memories := by
  cases c with
  | process =>
    intro a ha
    exact ha
  | get_ctx fs pool msg sim =>
    intro a ha
    unfold run_call
    dsimp only
    by_cases h0 : meta.message_count = 0
    · cases fs with
      | false =>
        rw [get_context_primer_branch ⟨rfl, h0⟩]
        exact ha
      | true =>
        rw [get_context_first_branch]
        exact ha
    · cases fs with
      | false =>
        rw [get_context_retrieval_branch h0]
        exact (get_relevant_injected pool meta.injected_memories msg sim).1 a ha
      | true =>
        rw [get_context_first_branch]
        exact ha

/-- Every id returned by one engine call is fresh for the session and is
recorded in the updated injected set. -/
theorem run_call_fresh (meta : SessionMeta) (c : EngineCall) {i : Nat}
    (h : i ∈ (run_call meta c).1) :
    i ∉ meta.injected_memories ∧ i ∈ (run_call meta c).2.injected_memories := by
  cases c with
  | process => simp [run_call] at h
  | get_ctx fs pool msg sim =>
    unfold run_call at h ⊢
    dsimp only at h ⊢
    by_cases h0 : meta.message_count = 0
    · cases fs with
      | false =>
        rw [get_context_primer_branch ⟨rfl, h0⟩] at h
        simp at h
      | true =>
        rw [get_context_first_branch] at h
        simp at h
    · cases fs with
      | true =>
        rw [get_context_first_branch] at h
        simp at h
      | false =>
        rw [get_context_retrieval_branch h0] at h ⊢
        dsimp only at h ⊢
        obtain ⟨x, hx, hxi⟩ := List.mem_map.mp h
        subst hxi
        constructor
        · have hni := get_relevant_not_injected hx
          simpa using hni
        · exact (get_relevant_injected pool meta.injected_memories msg sim).2 x hx

/-- An id already injected never appears in any output of a trace. -/
theorem trace_no_injected :
    ∀ (calls : List EngineCall) (meta : SessionMeta) (i : Nat) (k : Nat),
      i ∈ meta.injected_memories → i ∉ (run_trace meta calls).getD k [] := by
  intro calls
  induction calls with
  | nil =>
    intro meta i k _
    simp [run_trace]
  | cons c cs ih =>
    intro meta i k hi
    unfold run_trace
    dsimp only
    cases k with
    | zero =>
      simp only [List.getD_cons_zero]
      intro hmem
      exact absurd hi (run_call_fresh meta c hmem).1
    | succ k =>
      simp only [List.getD_cons_succ]
      exact ih _ _ _ (run_call_mono meta c i hi)

/-- Claim C3: the session injected set only grows, and an id returned by
one retrieval call of a session is never returned by any later call of the
same session, whatever pools, messages and similarity oracles the later
calls see. -/
theorem c3_session_dedup :
    (∀ (meta : SessionMeta) (c : EngineCall),
      ∀ a ∈ meta.injected_memories, a ∈ (run_call meta c).2.injected_memories) ∧
    (∀ (meta : SessionMeta) (calls : List EngineCall) (i j : Nat)
      (memory_id : Nat), i < j →
      memory_id ∈ (run_trace meta calls).getD i [] →
      memory_id ∉ (run_trace meta calls).getD j []) := by
  constructor
  · exact run_call_mono
  · intro meta calls
    induction calls generalizing meta with
    | nil =>
      intro i j mid _ hmem
      simp [run_trace] at hmem
    | cons c cs ih =>
      intro i j mid hij hmem
      unfold run_trace at hmem ⊢
      dsimp only at hmem ⊢
      cases i with
      | zero =>
        simp only [List.getD_cons_zero] at hmem
        obtain ⟨j', rfl⟩ : ∃ j', j = j' + 1 := ⟨j - 1, by omega⟩
        simp only [List.getD_cons_succ]
        exact trace_no_injected cs _ mid j' (run_call_fresh meta c hmem).2
      | succ i' =>
        obtain ⟨j', rfl⟩ : ∃ j', j = j' + 1 := ⟨j - 1, by omega⟩
        simp only [List.getD_cons_succ] at hmem ⊢
        exact ih _ i' j' mid (by omega) hmem

/-- Evaluation: the pipeline pair result on the singleton pool with nothing
injected: the sample obligatory memory and its id recorded. -/
theorem sample_pipeline_pair :
    get_relevant_memories_for_context [sample_obligatory] [] "what is foo?"
      (fun _ => 0) = ([sample_obligatory], [1]) := by
  unfold get_relevant_memories_for_context
  rw [if_neg (by decide)]
  dsimp only
  rw [sample_stage1_eval]
  rw [if_pos (by decide)]
  rw [show ([sample_obligatory].filter
      (fun m => !(([sample_obligatory].map (fun x => x.id)).contains m.id) &&
        !(([] : List Nat).contains m.id))) = [] from by decide]
  rfl

/-- Evaluation: the pipeline on the singleton pool with the id already
injected returns nothing and leaves the injected set unchanged. -/
theorem sample_pipeline_skip :
    get_relevant_memories_for_context [sample_obligatory] [1] "what is foo?"
      (fun _ => 0) = ([], [1]) := by
  unfold get_relevant_memories_for_context
  rw [if_neg (by decide)]
  dsimp only
  rw [show stage1_loop "what is foo?" (fun _ => 0) [1] [sample_obligatory] [] [] =
      [] from by
    unfold stage1_loop
    rw [if_pos (by decide)]
    rfl]
  rw [if_pos (by decide)]
  rw [show ([sample_obligatory].filter
      (fun m => !(([] : List Memory).map (fun x => x.id)).contains m.id &&
        !(([1] : List Nat).contains m.id))) = [] from by decide]
  rfl

/-- Evaluation: the first get context call of the two call trace returns
the sample memory id and records it. -/
theorem sample_call_one :
    run_call ⟨1, []⟩ (EngineCall.get_ctx false [sample_obligatory] "what is foo?"
      (fun _ => 0)) = ([1], ⟨1, [1]⟩) := by
  unfold run_call
  dsimp only
  rw [get_context_retrieval_branch (by decide)]
  dsimp only
  rw [sample_pipeline_pair]
  rfl

/-- Evaluation: the second get context call returns nothing because the id
is already injected. -/
theorem sample_call_two :
    run_call ⟨1, [1]⟩ (EngineCall.get_ctx false [sample_obligatory] "what is foo?"
      (fun _ => 0)) = ([], ⟨1, [1]⟩) := by
  unfold run_call
  dsimp only
  rw [get_context_retrieval_branch (by decide)]
  dsimp only
  rw [sample_pipeline_skip]
  rfl

/-- Evaluation: the two call trace produces the id once and then never
again. -/
theorem sample_trace_eval :
    run_trace ⟨1, []⟩
      [EngineCall.get_ctx false [sample_obligatory] "what is foo?" (fun _ => 0),
       EngineCall.get_ctx false [sample_obligatory] "what is foo?" (fun _ => 0)] =
      [[1], []] := by
  unfold run_trace
  rw [sample_call_one]
  dsimp only
  unfold run_trace
  rw [sample_call_two]
  rfl

/-- Witness for claim C3 on a concrete two call trace: the id returned by
the first call is recorded and not returned by the second call, and a
process call keeps an injected id. -/
theorem c3_witness :
    5 ∈ (run_call ⟨1, [5]⟩ EngineCall.process).2.injected_memories ∧
    (1 : Nat) ∉ (run_trace ⟨1, []⟩
      [EngineCall.get_ctx false [sample_obligatory] "what is foo?" (fun _ => 0),
       EngineCall.get_ctx false [sample_obligatory] "what is foo?" (fun _ => 0)]).getD
      1 [] :=
  ⟨c3_session_dedup.1 ⟨1, [5]⟩ EngineCall.process 5 (by simp),
   c3_session_dedup.2 ⟨1, []⟩
     [EngineCall.get_ctx false [sample_obligatory] "what is foo?" (fun _ => 0),
      EngineCall.get_ctx false [sample_obligatory] "what is foo?" (fun _ => 0)]
     0 1 1 (by omega)
     (by rw [sample_trace_eval]; simp)⟩

/-- Claim C9: the first get context call of a subsequent session (project
has history, message count 0) does not return a primer string at all: the
primer generator calls storage.get_all_curated_memories without its
required project_id argument and the resulting TypeError propagates, so the
call errors out; a fortiori the stored session summary text is never read
nor included (the primer builder only ever reads curated memories, and
MemoryStorage.get_last_session_summary has no caller). -/
theorem c9_primer_type_error :
    generate_primer = .error .typeError ∧
    get_context_for_session ⟨0, []⟩ false [sample_scored] "hello" (fun _ => 0) =
      (.error .typeError, ⟨0, []⟩) :=
  ⟨rfl, get_context_primer_branch ⟨rfl, rfl⟩⟩

/-- Claim C10 counterexample: a get context call before any process call
(message count 0, project has history) does not return the primer; it
raises TypeError. -/
theorem c10_counterexample :
    (get_context_for_session ⟨0, []⟩ false [sample_obligatory] "hi"
      (fun _ => 0)).1 = .error .typeError := by
  rw [get_context_primer_branch ⟨rfl, rfl⟩]

/-- Claim C10, amended: get_context_for_session never changes the session
message count (only process_message increments it), and while the count is
0 every get context call of a subsequent session takes the primer branch,
leaving the state untouched and never reaching the scored retrieval; in
the current code that branch raises TypeError instead of returning a
primer string. -/
theorem c10_amended :
    (∀ (meta : SessionMeta) (fs : Bool) (pool : List Memory) (msg : String)
      (sim : Nat → ℚ),
      (get_context_for_session meta fs pool msg sim).2.message_count =
        meta.message_count) ∧
    (∀ meta : SessionMeta,
      (process_message meta).message_count = meta.message_count + 1) ∧
    (∀ (meta : SessionMeta) (pool : List Memory) (msg : String) (sim : Nat → ℚ),
      meta.message_count = 0 →
      get_context_for_session meta false pool msg sim = (.error .typeError, meta)) := by
  refine ⟨?_, fun meta => rfl, ?_⟩
  · intro meta fs pool msg sim
    by_cases h0 : meta.message_count = 0
    · cases fs with
      | false => rw [get_context_primer_branch ⟨rfl, h0⟩]
      | true => rw [get_context_first_branch]
    · cases fs with
      | false => rw [get_context_retrieval_branch h0]
      | true => rw [get_context_first_branch]
  · intro meta pool msg sim h0
    exact get_context_primer_branch ⟨rfl, h0⟩

/-- Witness for the amended claim C10 at concrete session states. -/
theorem c10_witness :
    (get_context_for_session ⟨2, [3]⟩ false [sample_scored] "hey"
      (fun _ => 0)).2.message_count = 2 ∧
    (process_message ⟨2, [3]⟩).message_count = 3 ∧
    get_context_for_session ⟨0, [3]⟩ false [] "hey" (fun _ => 0) =
      (.error .typeError, ⟨0, [3]⟩) :=
  ⟨c10_amended.1 ⟨2, [3]⟩ false [sample_scored] "hey" (fun _ => 0),
   c10_amended.2.1 ⟨2, [3]⟩,
   c10_amended.2.2 ⟨0, [3]⟩ [] "hey" (fun _ => 0) rfl⟩

/-- Claim C6: when the external curation call raises, checkpoint_session
returns zero memories curated and leaves storage untouched; no exception
reaches the caller in any branch. -/
theorem c6_checkpoint_error :
    ∀ (message_count : Nat) (claude_session_id : Option String) (e : PyErr)
      (storage : StorageState),
      checkpoint_session message_count claude_session_id (.error e) storage =
        (0, storage) := by
  intro mc cs e storage
  unfold checkpoint_session
  split
  · rfl
  · cases cs with
    | none => rfl
    | some s => rfl

/- Part 14: curated candidate validation (_parse_curated_memories,
curator.py lines 697 to 749). -/

/-- Inserting into a list sorted by descending importance preserves the
sortedness (pairwise) invariant. -/
theorem pairwise_ge_insert_stable {x : CuratedMemory} :
    ∀ {l : List CuratedMemory},
      l.Pairwise (fun a b => b.importance_weight ≤ a.importance_weight) →
      (insert_stable by_importance_desc x l).Pairwise
        (fun a b => b.importance_weight ≤ a.importance_weight) := by
  intro l
  induction l with
  | nil => intro _; simp [insert_stable]
  | cons y ys ih =>
    intro h
    rw [List.pairwise_cons] at h
    obtain ⟨hy, hys⟩ := h
    by_cases hle : by_importance_desc x y = true
    · have hxy : y.importance_weight ≤ x.importance_weight := by
        simpa [by_importance_desc] using hle
      rw [insert_stable, if_pos hle]
      refine List.pairwise_cons.mpr ⟨?_, List.pairwise_cons.mpr ⟨hy, hys⟩⟩
      intro z hz
      rcases List.mem_cons.mp hz with hz | hz
      · exact hz ▸ hxy
      · exact (hy z hz).trans hxy
    · have hyx : x.importance_weight ≤ y.importance_weight := by
        have : ¬(y.importance_weight ≤ x.importance_weight) := by
          simpa [by_importance_desc] using hle
        exact le_of_not_le this
      rw [insert_stable, if_neg hle]
      refine List.pairwise_cons.mpr ⟨?_, ih hys⟩
      intro z hz
      rcases mem_insert_stable.mp hz with hz | hz
      · exact hz ▸ hyx
      · exact hy z hz

/-- The stable sort by descending importance yields a pairwise descending
list. -/
theorem pairwise_ge_sort_stable (l : List CuratedMemory) :
    (sort_stable by_importance_desc l).Pairwise
      (fun a b => b.importance_weight ≤ a.importance_weight) := by
  induction l with
  | nil => simp [sort_stable]
  | cons x xs ih => exact pairwise_ge_insert_stable ih

/-- Evaluation: one candidate object whose only key sets
importance_weight to 2 parses to the fully defaulted record with the
weight clamped to 1. -/
theorem sample_parse_one_eval :
    parse_one_memory [("importance_weight", .int 2)] = some sample_curated := by
  have hiw : dict_get_float [("importance_weight", PyVal.int 2)]
      "importance_weight" 0.5 = some ((2 : Int) : ℚ) := rfl
  have hcs : dict_get_float [("importance_weight", PyVal.int 2)]
      "confidence_score" 0.8 = some 0.8 := rfl
  unfold parse_one_memory
  rw [hiw, hcs]
  dsimp only
  refine congrArg some ?_
  unfold sample_curated
  simp only [CuratedMemory.mk.injEq]
  norm_num [max_def, min_def]
  exact ⟨rfl, rfl, rfl, rfl, rfl, rfl, rfl, rfl, rfl, rfl, rfl, rfl, rfl, rfl,
    rfl⟩

/-- Evaluation: the candidate array holding that single object parses to
the singleton list of the defaulted record. -/
theorem sample_parse_list_eval :
    parse_curated_memories_val (.list [.dict [("importance_weight", .int 2)]]) =
      [sample_curated] := by
  simp only [parse_curated_memories_val, List.filterMap_cons]
  rw [sample_parse_one_eval]
  rfl

/-- C7 counterexample: a candidate with confidence_score 3 keeps the
out-of-range value 3 in the parsed record, so confidence_score is not
clamped to the unit interval (only importance_weight is,
curator.py line 733). -/
theorem c7_counterexample :
    ((parse_curated_memories_val
        (.list [.dict [("confidence_score", .int 3)]])).map
      (fun r => r.confidence_score) = [3]) ∧ ¬((3 : ℚ) ≤ 1) := by
  refine ⟨?_, by norm_num⟩
  unfold parse_curated_memories_val parse_one_memory dict_get_float dict_get py_float
  norm_num [List.find?, sort_stable, insert_stable]

/-- Claim C7 (amended): every parsed candidate has importance_weight
clamped to the unit interval; missing fields receive the documented
defaults (context_type general, temporal_relevance persistent,
confidence_score 0.8, action_required false, list fields empty); and the
returned list is sorted by importance_weight descending.  Unlike the
original claim, confidence_score is not clamped (see the
counterexample). -/
theorem c7_amended :
    (∀ (v : PyVal) (r : CuratedMemory), r ∈ parse_curated_memories_val v →
      0 ≤ r.importance_weight ∧ r.importance_weight ≤ 1) ∧
    (∀ (kvs : List (String × PyVal)) (r : CuratedMemory),
      parse_one_memory kvs = some r →
      (kvs.find? (fun kv => kv.1 == "context_type") = none →
        r.context_type = .str "general") ∧
      (kvs.find? (fun kv => kv.1 == "temporal_relevance") = none →
        r.temporal_relevance = .str "persistent") ∧
      (kvs.find? (fun kv => kv.1 == "confidence_score") = none →
        r.confidence_score = 0.8) ∧
      (kvs.find? (fun kv => kv.1 == "action_required") = none →
        r.action_required = .bool false) ∧
      (kvs.find? (fun kv => kv.1 == "semantic_tags") = none →
        r.semantic_tags = .list []) ∧
      (kvs.find? (fun kv => kv.1 == "trigger_phrases") = none →
        r.trigger_phrases = .list []) ∧
      (kvs.find? (fun kv => kv.1 == "question_types") = none →
        r.question_types = .list [])) ∧
    (∀ v : PyVal, (parse_curated_memories_val v).Pairwise
      (fun a b => b.importance_weight ≤ a.importance_weight)) := by
  have hone : ∀ (kvs : List (String × PyVal)) (r : CuratedMemory),
      parse_one_memory kvs = some r →
      ∃ iw : ℚ, r.importance_weight = max 0.0 (min 1.0 iw) ∧
        (∀ k d, kvs.find? (fun kv => kv.1 == k) = none →
          dict_get kvs k d = d) ∧
        r.context_type = dict_get kvs "context_type" (.str "general") ∧
        r.temporal_relevance = dict_get kvs "temporal_relevance" (.str "persistent") ∧
        (kvs.find? (fun kv => kv.1 == "confidence_score") = none →
          r.confidence_score = 0.8) ∧
        r.action_required = dict_get kvs "action_required" (.bool false) ∧
        r.semantic_tags = dict_get kvs "semantic_tags" (.list []) ∧
        r.trigger_phrases = dict_get kvs "trigger_phrases" (.list []) ∧
        r.question_types = dict_get kvs "question_types" (.list []) := by
    intro kvs r h
    unfold parse_one_memory at h
    split at h
    case h_2 => exact absurd h (by simp)
    case h_1 iw cs hiw hcs =>
      injection h with h
      subst h
      refine ⟨iw, rfl, ?_, rfl, rfl, ?_, rfl, rfl, rfl, rfl⟩
      · intro k d hk
        unfold dict_get
        rw [hk]
      · intro hnone
        unfold dict_get_float at hcs
        rw [hnone] at hcs
        injection hcs with hcs
        exact hcs.symm
  refine ⟨?_, ?_, ?_⟩
  · intro v r hr
    cases v with
    | list xs =>
      obtain ⟨x, hx, hf⟩ := List.mem_filterMap.mp (mem_sort_stable.mp hr)
      cases x with
      | dict kvs =>
        obtain ⟨iw, hiw, -⟩ := hone kvs r hf
        rw [hiw]
        constructor
        · exact le_trans (by norm_num) (le_max_left _ _)
        · exact max_le (by norm_num) ((min_le_left _ _).trans (by norm_num))
      | int n => exact absurd hf (by simp)
      | str s => exact absurd hf (by simp)
      | bool b => exact absurd hf (by simp)
      | null => exact absurd hf (by simp)
      | list ys => exact absurd hf (by simp)
    | int n => exact absurd hr (by simp [parse_curated_memories_val])
    | str s => exact absurd hr (by simp [parse_curated_memories_val])
    | bool b => exact absurd hr (by simp [parse_curated_memories_val])
    | null => exact absurd hr (by simp [parse_curated_memories_val])
    | dict kvs => exact absurd hr (by simp [parse_curated_memories_val])
  · intro kvs r h
    obtain ⟨iw, -, hget, hct, htr, hcs, har, hst, htp, hqt⟩ := hone kvs r h
    exact ⟨fun hn => hct.trans (hget _ _ hn), fun hn => htr.trans (hget _ _ hn),
      hcs, fun hn => har.trans (hget _ _ hn), fun hn => hst.trans (hget _ _ hn),
      fun hn => htp.trans (hget _ _ hn), fun hn => hqt.trans (hget _ _ hn)⟩
  · intro v
    cases v with
    | list xs => exact pairwise_ge_sort_stable _
    | int n => exact List.Pairwise.nil
    | str s => exact List.Pairwise.nil
    | bool b => exact List.Pairwise.nil
    | null => exact List.Pairwise.nil
    | dict kvs => exact List.Pairwise.nil

/-- Witness for C7: the amended theorem applied to the singleton candidate
array with importance_weight 2, yielding clamped weight 1, the defaulted
fields, and a sorted singleton output. -/
theorem c7_witness :
    (0 ≤ sample_curated.importance_weight ∧
      sample_curated.importance_weight ≤ 1) ∧
    sample_curated.context_type = .str "general" ∧
    sample_curated.temporal_relevance = .str "persistent" ∧
    sample_curated.confidence_score = 0.8 ∧
    sample_curated.action_required = .bool false ∧
    sample_curated.semantic_tags = .list [] ∧
    (parse_curated_memories_val
        (.list [.dict [("importance_weight", .int 2)]])).Pairwise
      (fun a b => b.importance_weight ≤ a.importance_weight) := by
  have h1 := c7_amended.1 (.list [.dict [("importance_weight", .int 2)]])
    sample_curated
    (by rw [sample_parse_list_eval]; exact List.mem_singleton.mpr rfl)
  have h2 := c7_amended.2.1 [("importance_weight", .int 2)] sample_curated
    sample_parse_one_eval
  exact ⟨h1, h2.1 rfl, h2.2.1 rfl, h2.2.2.1 rfl, h2.2.2.2.1 rfl,
    h2.2.2.2.2.1 rfl,
    c7_amended.2.2 (.list [.dict [("importance_weight", .int 2)]])⟩

/- Part 15: parser and renderer round trip (curator.py fallback chain,
lines 608 to 695). -/

/-- Leading whitespace removal keeps a non space head. -/
theorem skip_ws_cons {c : Char} {l : List Char} (h : py_is_space c = false) :
    skip_ws (c :: l) = c :: l := by
  simp [skip_ws, List.dropWhile_cons, h]

/-- Leading whitespace removal drops a space head. -/
theorem skip_ws_cons_sp {c : Char} {l : List Char} (h : py_is_space c = true) :
    skip_ws (c :: l) = skip_ws l := by
  simp [skip_ws, List.dropWhile_cons, h]

/-- The value parser ignores a leading space. -/
theorem parse_val_ws (d : Bool) (fuel : Nat) {c : Char} (input : List Char)
    (h : py_is_space c = true) :
    parse_val d fuel (c :: input) = parse_val d fuel input := by
  cases fuel with
  | zero => rfl
  | succ f =>
    simp only [parse_val]
    rw [skip_ws_cons_sp h]

/-- The string body scan consumes exactly the quote free content up to the
closing quote. -/
theorem take_str_round (q : Char) : ∀ (s rest : List Char),
    (∀ c ∈ s, (c == q) = false) →
    take_str q (s ++ q :: rest) = some (s, rest) := by
  intro s
  induction s with
  | nil =>
    intro rest _
    simp [take_str]
  | cons c cs ih =>
    intro rest h
    have hc : (c == q) = false := h c (by simp)
    simp only [List.cons_append, take_str, hc, Bool.false_eq_true, if_false,
      List.append_eq, ih rest (fun x hx => h x (by simp [hx]))]

/-- Exact token match on the token itself followed by anything. -/
theorem expect_chars_append : ∀ (t l : List Char),
    expect_chars t (t ++ l) = some l := by
  intro t
  induction t with
  | nil => intro l; rfl
  | cons a ts ih =>
    intro l
    simp only [List.cons_append, expect_chars, beq_self_eq_true, if_true,
      List.append_eq, ih]

/-- Exact token match fails on a first character mismatch. -/
theorem expect_chars_ne {a b : Char} {ts l : List Char} (h : (a == b) = false) :
    expect_chars (a :: ts) (b :: l) = none := by
  simp only [expect_chars, h, Bool.false_eq_true, if_false]

/-- Character facts for the decimal digits used by the integer renderer, in
both quote dialects. -/
theorem digit_char_facts (d : Bool) {m : Nat} (h : m < 10) :
    (digit_char m).toNat - 48 = m ∧
    (digit_char m).isDigit = true ∧
    py_is_space (digit_char m) = false ∧
    quote_ok d (digit_char m) = false ∧
    ((digit_char m) == '[') = false ∧
    ((digit_char m) == lbrace) = false ∧
    ((digit_char m) == ']') = false ∧
    ((digit_char m) == '-') = false ∧
    (('T' : Char) == (digit_char m)) = false ∧
    (('t' : Char) == (digit_char m)) = false ∧
    (('F' : Char) == (digit_char m)) = false ∧
    (('f' : Char) == (digit_char m)) = false ∧
    (('N' : Char) == (digit_char m)) = false ∧
    (('n' : Char) == (digit_char m)) = false := by
  cases d <;> (interval_cases m <;>
    exact ⟨rfl, rfl, rfl, rfl, rfl, rfl, rfl, rfl, rfl, rfl, rfl, rfl, rfl, rfl⟩)

/-- The maximal digit scan consumes exactly a digit run followed by a non
digit continuation. -/
theorem take_digits_round : ∀ (ds rest : List Char),
    (∀ c ∈ ds, c.isDigit = true) → not_digit_start rest = true →
    take_digits (ds ++ rest) = (ds, rest) := by
  intro ds
  induction ds with
  | nil =>
    intro rest _ hr
    cases rest with
    | nil => rfl
    | cons c t =>
      have hc : c.isDigit = false := by
        simpa [not_digit_start] using hr
      simp [take_digits, hc]
  | cons c cs ih =>
    intro rest h hr
    have hc : c.isDigit = true := h c (by simp)
    simp [take_digits, hc, ih rest (fun x hx => h x (by simp [hx])) hr]

/-- Digit accumulation over a final digit. -/
theorem digits_to_nat_append (l : List Char) (c : Char) :
    digits_to_nat (l ++ [c]) = digits_to_nat l * 10 + (c.toNat - 48) := by
  simp [digits_to_nat, List.foldl_append]

/-- The decimal rendering of a natural number is a nonempty digit run whose
value is the number itself. -/
theorem render_nat_spec : ∀ n : Nat,
    render_nat n ≠ [] ∧ (∀ c ∈ render_nat n, ∃ m, m < 10 ∧ c = digit_char m) ∧
    digits_to_nat (render_nat n) = n := by
  intro n
  induction n using Nat.strong_induction_on with
  | _ n ih =>
    by_cases h : n < 10
    · rw [render_nat, dif_pos h]
      refine ⟨by simp, ?_, ?_⟩
      · intro c hc
        rw [List.mem_singleton] at hc
        exact ⟨n, h, hc⟩
      · have ht := (digit_char_facts false h).1
        simp [digits_to_nat, ht]
    · rw [render_nat, dif_neg h]
      obtain ⟨h1, h2, h3⟩ := ih (n / 10) (Nat.div_lt_self (by omega) (by omega))
      have hm : n % 10 < 10 := Nat.mod_lt _ (by omega)
      refine ⟨by simp [h1], ?_, ?_⟩
      · intro c hc
        rcases List.mem_append.mp hc with hc | hc
        · exact h2 c hc
        · rw [List.mem_singleton] at hc
          exact ⟨n % 10, hm, hc⟩
      · rw [digits_to_nat_append, h3, (digit_char_facts false hm).1]
        omega

/-- The integer literal scan reads back exactly the rendered integer when
the continuation does not start with a digit. -/
theorem parse_int_token_round (n : Int) (rest : List Char)
    (hr : not_digit_start rest = true) :
    parse_int_token (render_int n ++ rest) = some (n, rest) := by
  obtain ⟨h1, h2, h3⟩ := render_nat_spec n.natAbs
  obtain ⟨c, cs, hcc⟩ := List.exists_cons_of_ne_nil h1
  have hdig : ∀ x ∈ render_nat n.natAbs, x.isDigit = true := by
    intro x hx
    obtain ⟨m, hm, hxm⟩ := h2 x hx
    rw [hxm]
    exact (digit_char_facts false hm).2.1
  by_cases hneg : n < 0
  · rw [render_int, if_pos hneg, List.cons_append]
    simp only [parse_int_token]
    rw [take_digits_round _ _ hdig hr, hcc]
    dsimp only
    rw [← hcc, h3]
    have : -(n.natAbs : Int) = n := by omega
    rw [this]
  · have hri : render_int n = render_nat n.natAbs := by
      rw [render_int, if_neg hneg]
    obtain ⟨m, hm, hcm⟩ := h2 c (by rw [hcc]; simp)
    have hcminus : (c == '-') = false := by
      rw [hcm]; exact (digit_char_facts false hm).2.2.2.2.2.2.2.1
    rw [hri, hcc, List.cons_append, parse_int_token.eq_def]
    split
    · rename_i heq
      rw [List.cons.injEq] at heq
      rw [heq.1] at hcminus
      simp at hcminus
    · rw [← List.cons_append, ← hcc, take_digits_round _ _ hdig hr, hcc]
      dsimp only
      rw [← hcc, h3]
      have : (n.natAbs : Int) = n := by omega
      rw [this]

/-- A character safe for both dialects differs from both quote
characters. -/
theorem safe_char_split {c : Char} (h : safe_char c = true) :
    (c == squote) = false ∧ (c == dquote) = false := by
  unfold safe_char at h
  rw [Bool.and_eq_true, Bool.and_eq_true, Bool.and_eq_true, Bool.and_eq_true] at h
  exact ⟨by simpa using h.1.1.2, by simpa using h.1.2⟩

/-- Head facts for the minus sign. -/
theorem minus_head_facts (d : Bool) :
    py_is_space '-' = false ∧ quote_ok d '-' = false ∧
    ('-' == '[') = false ∧ ('-' == lbrace) = false ∧
    (∀ l : List Char, expect_chars (tok_true d) ('-' :: l) = none) ∧
    (∀ l : List Char, expect_chars (tok_false d) ('-' :: l) = none) ∧
    (∀ l : List Char, expect_chars (tok_null d) ('-' :: l) = none) := by
  cases d <;>
    exact ⟨rfl, rfl, rfl, rfl, fun l => rfl, fun l => rfl, fun l => rfl⟩

/-- Token rejection facts for a digit head. -/
theorem digit_tok_facts (d : Bool) {m : Nat} (h : m < 10) :
    (∀ l : List Char, expect_chars (tok_true d) (digit_char m :: l) = none) ∧
    (∀ l : List Char, expect_chars (tok_false d) (digit_char m :: l) = none) ∧
    (∀ l : List Char, expect_chars (tok_null d) (digit_char m :: l) = none) := by
  obtain ⟨-, -, -, -, -, -, -, -, hT, ht, hF, hf, hN, hn⟩ := digit_char_facts d h
  cases d <;>
    exact ⟨fun l => expect_chars_ne (by assumption),
      fun l => expect_chars_ne (by assumption),
      fun l => expect_chars_ne (by assumption)⟩

/-- Head facts for the quote character of each dialect. -/
theorem quote_head_facts (d : Bool) :
    py_is_space (str_quote d) = false ∧ quote_ok d (str_quote d) = true ∧
    ((str_quote d) == rbrace) = false := by
  cases d <;> exact ⟨rfl, rfl, rfl⟩

/-- Head facts for the opening bracket. -/
theorem bracket_head_facts (d : Bool) :
    py_is_space '[' = false ∧ quote_ok d '[' = false ∧ ('[' == '[') = true := by
  cases d <;> exact ⟨rfl, rfl, rfl⟩

/-- Head facts for the opening brace. -/
theorem brace_head_facts (d : Bool) :
    py_is_space lbrace = false ∧ quote_ok d lbrace = false ∧
    (lbrace == '[') = false ∧ (lbrace == lbrace) = true := by
  cases d <;> exact ⟨rfl, rfl, rfl, rfl⟩

/-- The full rendering of a nonempty array splits into the first element
and the separated continuation. -/
theorem render_items_eq (d : Bool) : ∀ (x : PyVal) (xs : List PyVal),
    render_items d (x :: xs) = render_val d x ++ items_cont d xs := by
  intro x xs
  induction xs generalizing x with
  | nil => simp [render_items, items_cont]
  | cons y ys ih =>
    simp only [render_items, items_cont, ih y]
    simp [List.append_assoc]

/-- The full rendering of a nonempty object splits into the first entry
and the separated continuation. -/
theorem render_kvs_eq (d : Bool) : ∀ (k : String) (v : PyVal)
    (kvs : List (String × PyVal)),
    render_kvs d ((k, v) :: kvs) =
      str_quote d :: k.data ++ str_quote d :: ':' :: ' ' :: render_val d v ++
        kvs_cont d kvs := by
  intro k v kvs
  induction kvs generalizing k v with
  | nil => simp [render_kvs, kvs_cont]
  | cons kv rest ih =>
    obtain ⟨k2, v2⟩ := kv
    simp only [render_kvs, kvs_cont, ih k2 v2]
    simp [List.append_assoc]

/-- The array continuation followed by the closing bracket never starts
with a digit. -/
theorem not_digit_items (d : Bool) (xs : List PyVal) (rest : List Char) :
    not_digit_start (items_cont d xs ++ ']' :: rest) = true := by
  cases xs <;> rfl

/-- The object continuation followed by the closing brace never starts
with a digit. -/
theorem not_digit_kvs (d : Bool) (kvs : List (String × PyVal))
    (rest : List Char) :
    not_digit_start (kvs_cont d kvs ++ rbrace :: rest) = true := by
  cases kvs with
  | nil => rfl
  | cons kv r => obtain ⟨k, v⟩ := kv; rfl

/-- The rendering of any wellformed value starts with a non space
character distinct from the closing bracket. -/
theorem render_val_head (d : Bool) (v : PyVal) :
    ∃ c t, render_val d v = c :: t ∧ py_is_space c = false ∧
      (c == ']') = false := by
  cases v with
  | int n =>
    by_cases hneg : n < 0
    · exact ⟨'-', render_nat n.natAbs,
        by simp only [render_val]; rw [render_int, if_pos hneg], rfl, rfl⟩
    · obtain ⟨h1, h2, -⟩ := render_nat_spec n.natAbs
      obtain ⟨c, cs, hcc⟩ := List.exists_cons_of_ne_nil h1
      obtain ⟨m, hm, hcm⟩ := h2 c (by rw [hcc]; simp)
      refine ⟨c, cs, ?_, ?_, ?_⟩
      · simp only [render_val]
        rw [render_int, if_neg hneg, hcc]
      · rw [hcm]; exact (digit_char_facts d hm).2.2.1
      · rw [hcm]; exact (digit_char_facts d hm).2.2.2.2.2.2.1
  | str s =>
    exact ⟨str_quote d, s.data ++ [str_quote d],
      by simp [render_val], (quote_head_facts d).1,
      by cases d <;> rfl⟩
  | bool b => cases b <;> cases d <;> exact ⟨_, _, rfl, rfl, rfl⟩
  | null => cases d <;> exact ⟨_, _, rfl, rfl, rfl⟩
  | list xs =>
    exact ⟨'[', render_items d xs ++ [']'], by simp [render_val], rfl, rfl⟩
  | dict kvs =>
    exact ⟨lbrace, render_kvs d kvs ++ [rbrace], by simp [render_val],
      by decide, by decide⟩

/-- One round trip step: the value parser reads back a rendered integer. -/
theorem parse_val_int (d : Bool) (f : Nat) (n : Int) (rest : List Char)
    (hr : not_digit_start rest = true) :
    parse_val d (f + 1) (render_val d (.int n) ++ rest) =
      some (.int n, rest) := by
  obtain ⟨hsp, hq, hbr, hbc, hT, hF, hN⟩ := minus_head_facts d
  by_cases hneg : n < 0
  · have hrv : render_val d (.int n) = '-' :: render_nat n.natAbs := by
      simp only [render_val]; rw [render_int, if_pos hneg]
    rw [hrv, List.cons_append]
    simp only [parse_val]
    rw [skip_ws_cons hsp]
    dsimp only
    simp only [hq, hbr, hbc, Bool.false_eq_true, if_false]
    rw [hT, hF, hN]
    dsimp only
    rw [show ('-' :: (render_nat n.natAbs ++ rest) : List Char) =
      render_int n ++ rest from by rw [render_int, if_pos hneg, List.cons_append]]
    rw [parse_int_token_round n rest hr]
  · have hri : render_int n = render_nat n.natAbs := by
      rw [render_int, if_neg hneg]
    obtain ⟨h1, h2, -⟩ := render_nat_spec n.natAbs
    obtain ⟨c, cs, hcc⟩ := List.exists_cons_of_ne_nil h1
    obtain ⟨m, hm, hcm⟩ := h2 c (by rw [hcc]; simp)
    obtain ⟨-, -, hsp2, hq2, hbr2, hbc2, -, -, -, -, -, -, -, -⟩ :=
      digit_char_facts d hm
    obtain ⟨hT2, hF2, hN2⟩ := digit_tok_facts d hm
    have hrv : render_val d (.int n) = render_int n := by simp only [render_val]
    rw [hrv, hri, hcc, List.cons_append, hcm]
    simp only [parse_val]
    rw [skip_ws_cons hsp2]
    dsimp only
    simp only [hq2, hbr2, hbc2, Bool.false_eq_true, if_false]
    rw [hT2, hF2, hN2]
    dsimp only
    rw [show (digit_char m :: (cs ++ rest) : List Char) =
      render_int n ++ rest from by
      rw [hri, hcc, hcm, List.cons_append]]
    rw [parse_int_token_round n rest hr]

/-- One round trip step: the value parser reads back a rendered safe
string. -/
theorem parse_val_str (d : Bool) (f : Nat) (s : String) (rest : List Char)
    (hw : safe_str s = true) :
    parse_val d (f + 1) (render_val d (.str s) ++ rest) =
      some (.str s, rest) := by
  obtain ⟨hsp, hq, -⟩ := quote_head_facts d
  have hshape : render_val d (.str s) ++ rest =
      str_quote d :: (s.data ++ str_quote d :: rest) := by
    simp [render_val, List.append_assoc]
  rw [hshape]
  simp only [parse_val]
  rw [skip_ws_cons hsp]
  dsimp only
  simp only [hq, if_true]
  rw [take_str_round (str_quote d) s.data rest ?hqfree]
  case hqfree =>
    intro c hc
    have hcs : safe_char c = true := by
      unfold safe_str at hw
      exact List.all_eq_true.mp hw c hc
    obtain ⟨hs1, hs2⟩ := safe_char_split hcs
    cases d
    · exact hs2
    · exact hs1

/-- One round trip step: the value parser reads back a rendered boolean. -/
theorem parse_val_bool (d : Bool) (f : Nat) (b : Bool) (rest : List Char) :
    parse_val d (f + 1) (render_val d (.bool b) ++ rest) =
      some (.bool b, rest) := by
  cases b <;> cases d
  case false.false =>
    rw [show render_val false (.bool false) ++ rest =
      'f' :: 'a' :: 'l' :: 's' :: 'e' :: rest from rfl]
    simp only [parse_val]
    rw [skip_ws_cons (show py_is_space 'f' = false from rfl)]
    dsimp only
    simp only [show quote_ok false 'f' = false from rfl,
      show ('f' == '[') = false from rfl,
      show ('f' == lbrace) = false from by decide,
      Bool.false_eq_true, if_false]
    rw [show expect_chars (tok_true false) ('f' :: 'a' :: 'l' :: 's' :: 'e' :: rest) =
      none from rfl]
    dsimp only
    rw [show ('f' :: 'a' :: 'l' :: 's' :: 'e' :: rest : List Char) =
      tok_false false ++ rest from rfl, expect_chars_append]
  case false.true =>
    rw [show render_val true (.bool false) ++ rest =
      'F' :: 'a' :: 'l' :: 's' :: 'e' :: rest from rfl]
    simp only [parse_val]
    rw [skip_ws_cons (show py_is_space 'F' = false from rfl)]
    dsimp only
    simp only [show quote_ok true 'F' = false from by decide,
      show ('F' == '[') = false from rfl,
      show ('F' == lbrace) = false from by decide,
      Bool.false_eq_true, if_false]
    rw [show expect_chars (tok_true true) ('F' :: 'a' :: 'l' :: 's' :: 'e' :: rest) =
      none from rfl]
    dsimp only
    rw [show ('F' :: 'a' :: 'l' :: 's' :: 'e' :: rest : List Char) =
      tok_false true ++ rest from rfl, expect_chars_append]
  case true.false =>
    rw [show render_val false (.bool true) ++ rest =
      't' :: 'r' :: 'u' :: 'e' :: rest from rfl]
    simp only [parse_val]
    rw [skip_ws_cons (show py_is_space 't' = false from rfl)]
    dsimp only
    simp only [show quote_ok false 't' = false from rfl,
      show ('t' == '[') = false from rfl,
      show ('t' == lbrace) = false from by decide,
      Bool.false_eq_true, if_false]
    rw [show ('t' :: 'r' :: 'u' :: 'e' :: rest : List Char) =
      tok_true false ++ rest from rfl, expect_chars_append]
  case true.true =>
    rw [show render_val true (.bool true) ++ rest =
      'T' :: 'r' :: 'u' :: 'e' :: rest from rfl]
    simp only [parse_val]
    rw [skip_ws_cons (show py_is_space 'T' = false from rfl)]
    dsimp only
    simp only [show quote_ok true 'T' = false from by decide,
      show ('T' == '[') = false from rfl,
      show ('T' == lbrace) = false from by decide,
      Bool.false_eq_true, if_false]
    rw [show ('T' :: 'r' :: 'u' :: 'e' :: rest : List Char) =
      tok_true true ++ rest from rfl, expect_chars_append]

/-- One round trip step: the value parser reads back a rendered null. -/
theorem parse_val_null (d : Bool) (f : Nat) (rest : List Char) :
    parse_val d (f + 1) (render_val d .null ++ rest) = some (.null, rest) := by
  cases d
  case false =>
    rw [show render_val false .null ++ rest =
      'n' :: 'u' :: 'l' :: 'l' :: rest from rfl]
    simp only [parse_val]
    rw [skip_ws_cons (show py_is_space 'n' = false from rfl)]
    dsimp only
    simp only [show quote_ok false 'n' = false from rfl,
      show ('n' == '[') = false from rfl,
      show ('n' == lbrace) = false from by decide,
      Bool.false_eq_true, if_false]
    rw [show expect_chars (tok_true false) ('n' :: 'u' :: 'l' :: 'l' :: rest) =
      none from rfl]
    dsimp only
    rw [show expect_chars (tok_false false) ('n' :: 'u' :: 'l' :: 'l' :: rest) =
      none from rfl]
    dsimp only
    rw [show ('n' :: 'u' :: 'l' :: 'l' :: rest : List Char) =
      tok_null false ++ rest from rfl, expect_chars_append]
  case true =>
    rw [show render_val true .null ++ rest =
      'N' :: 'o' :: 'n' :: 'e' :: rest from rfl]
    simp only [parse_val]
    rw [skip_ws_cons (show py_is_space 'N' = false from rfl)]
    dsimp only
    simp only [show quote_ok true 'N' = false from by decide,
      show ('N' == '[') = false from rfl,
      show ('N' == lbrace) = false from by decide,
      Bool.false_eq_true, if_false]
    rw [show expect_chars (tok_true true) ('N' :: 'o' :: 'n' :: 'e' :: rest) =
      none from rfl]
    dsimp only
    rw [show expect_chars (tok_false true) ('N' :: 'o' :: 'n' :: 'e' :: rest) =
      none from rfl]
    dsimp only
    rw [show ('N' :: 'o' :: 'n' :: 'e' :: rest : List Char) =
      tok_null true ++ rest from rfl, expect_chars_append]

/-- Quote freedom of a safe string in either dialect. -/
theorem safe_str_qfree (d : Bool) {s : String} (h : safe_str s = true) :
    ∀ c ∈ s.data, (c == str_quote d) = false := by
  intro c hc
  have hcs : safe_char c = true := by
    unfold safe_str at h
    exact List.all_eq_true.mp h c hc
  obtain ⟨hs1, hs2⟩ := safe_char_split hcs
  cases d
  · exact hs2
  · exact hs1

/-- Every value demands at least one unit of fuel. -/
theorem one_le_need_val (v : PyVal) : 1 ≤ need_val v := by
  cases v <;> simp [need_val]

/-- Every array continuation demands at least one unit of fuel. -/
theorem one_le_need_items (xs : List PyVal) : 1 ≤ need_items xs := by
  cases xs <;> simp [need_items]

/-- Every object continuation demands at least one unit of fuel. -/
theorem one_le_need_kvs (kvs : List (String × PyVal)) : 1 ≤ need_kvs kvs := by
  cases kvs with
  | nil => simp [need_kvs]
  | cons kv r => obtain ⟨k, v⟩ := kv; simp [need_kvs]

/-- Round trip of the recursive descent parser on rendered wellformed
values, array continuations and object continuations, for any fuel at
least the demanded amount. -/
theorem rt_main (d : Bool) : ∀ fuel : Nat,
    (∀ v rest, wf_val v = true → not_digit_start rest = true →
      need_val v ≤ fuel →
      parse_val d fuel (render_val d v ++ rest) = some (v, rest)) ∧
    (∀ xs rest, wf_items xs = true → not_digit_start rest = true →
      need_items xs ≤ fuel →
      parse_items d fuel (items_cont d xs ++ ']' :: rest) = some (xs, rest)) ∧
    (∀ kvs rest, wf_kvs kvs = true → not_digit_start rest = true →
      need_kvs kvs ≤ fuel →
      parse_kvs d fuel (kvs_cont d kvs ++ rbrace :: rest) = some (kvs, rest)) := by
  intro fuel
  induction fuel using Nat.strong_induction_on with
  | _ fuel ih =>
  cases fuel with
  | zero =>
    refine ⟨?_, ?_, ?_⟩
    · intro v rest _ _ hn
      exact absurd hn (by have := one_le_need_val v; omega)
    · intro xs rest _ _ hn
      exact absurd hn (by have := one_le_need_items xs; omega)
    · intro kvs rest _ _ hn
      exact absurd hn (by have := one_le_need_kvs kvs; omega)
  | succ f =>
  have IH := ih f (Nat.lt_succ_self f)
  refine ⟨?_, ?_, ?_⟩
  · intro v rest hw hr hn
    cases v with
    | int n => exact parse_val_int d f n rest hr
    | str s => exact parse_val_str d f s rest (by simpa [wf_val] using hw)
    | bool b => exact parse_val_bool d f b rest
    | null => exact parse_val_null d f rest
    | list xs =>
      cases xs with
      | nil =>
        rw [show render_val d (.list []) ++ rest = '[' :: ']' :: rest from by
          simp [render_val, render_items]]
        simp only [parse_val]
        rw [skip_ws_cons (bracket_head_facts d).1]
        dsimp only
        simp only [(bracket_head_facts d).2.1, Bool.false_eq_true, if_false,
          (bracket_head_facts d).2.2, if_true]
        rw [skip_ws_cons (show py_is_space ']' = false from rfl)]
        dsimp only
        simp only [beq_self_eq_true, if_true]
      | cons x xs2 =>
        have hw2 : wf_val x = true ∧ wf_items xs2 = true := by
          rw [show wf_val (.list (x :: xs2)) = (wf_val x && wf_items xs2) from by
            simp [wf_val, wf_items], Bool.and_eq_true] at hw
          exact hw
        have hnv : need_val x ≤ f := by
          simp only [need_val, need_items] at hn; omega
        have hni : need_items xs2 ≤ f := by
          simp only [need_val, need_items] at hn; omega
        rw [show render_val d (.list (x :: xs2)) ++ rest =
            '[' :: (render_val d x ++ (items_cont d xs2 ++ ']' :: rest)) from by
          simp only [render_val, render_items_eq]
          simp [List.append_assoc]]
        simp only [parse_val]
        rw [skip_ws_cons (bracket_head_facts d).1]
        dsimp only
        simp only [(bracket_head_facts d).2.1, Bool.false_eq_true, if_false,
          (bracket_head_facts d).2.2, if_true]
        obtain ⟨c, t, hct, hsp, hne⟩ := render_val_head d x
        rw [hct, List.cons_append, skip_ws_cons hsp]
        dsimp only
        simp only [hne, Bool.false_eq_true, if_false]
        rw [← List.cons_append, ← hct]
        rw [IH.1 x (items_cont d xs2 ++ ']' :: rest) hw2.1
          (not_digit_items d xs2 rest) hnv]
        dsimp only
        rw [IH.2.1 xs2 rest hw2.2 hr hni]
    | dict kvs =>
      cases kvs with
      | nil =>
        rw [show render_val d (.dict []) ++ rest = lbrace :: rbrace :: rest from by
          simp [render_val, render_kvs]]
        simp only [parse_val]
        rw [skip_ws_cons (brace_head_facts d).1]
        dsimp only
        simp only [(brace_head_facts d).2.1, (brace_head_facts d).2.2.1,
          Bool.false_eq_true, if_false, (brace_head_facts d).2.2.2, if_true]
        rw [skip_ws_cons (show py_is_space rbrace = false from by decide)]
        dsimp only
        simp only [beq_self_eq_true, if_true]
      | cons kv kvs2 =>
        obtain ⟨k, v⟩ := kv
        have hw2 : safe_str k = true ∧ wf_val v = true ∧ wf_kvs kvs2 = true := by
          rw [show wf_val (.dict ((k, v) :: kvs2)) =
            ((safe_str k && wf_val v && wf_kvs kvs2) &&
              distinct_strs (((k, v) :: kvs2).map Prod.fst)) from by
            simp [wf_val, wf_kvs]] at hw
          rw [Bool.and_eq_true, Bool.and_eq_true, Bool.and_eq_true] at hw
          exact ⟨hw.1.1.1, hw.1.1.2, hw.1.2⟩
        have hnv : need_val v ≤ f := by
          simp only [need_val, need_kvs] at hn; omega
        have hnk : need_kvs kvs2 ≤ f := by
          simp only [need_val, need_kvs] at hn; omega
        rw [show render_val d (.dict ((k, v) :: kvs2)) ++ rest =
            lbrace :: (str_quote d :: (k.data ++ (str_quote d :: ':' :: ' ' ::
              (render_val d v ++ (kvs_cont d kvs2 ++ rbrace :: rest))))) from by
          simp only [render_val, render_kvs_eq]
          simp [List.append_assoc]]
        simp only [parse_val]
        rw [skip_ws_cons (brace_head_facts d).1]
        dsimp only
        simp only [(brace_head_facts d).2.1, (brace_head_facts d).2.2.1,
          Bool.false_eq_true, if_false, (brace_head_facts d).2.2.2, if_true]
        rw [skip_ws_cons (quote_head_facts d).1]
        dsimp only
        simp only [(quote_head_facts d).2.2, Bool.false_eq_true, if_false,
          (quote_head_facts d).2.1, if_true]
        rw [take_str_round (str_quote d) k.data _ (safe_str_qfree d hw2.1)]
        dsimp only
        rw [skip_ws_cons (show py_is_space ':' = false from rfl)]
        split
        · rename_i r3 heq
          rw [List.cons.injEq] at heq
          obtain ⟨-, heq2⟩ := heq
          subst heq2
          rw [parse_val_ws d f _ (show py_is_space ' ' = true from rfl)]
          rw [IH.1 v (kvs_cont d kvs2 ++ rbrace :: rest) hw2.2.1
            (not_digit_kvs d kvs2 rest) hnv]
          dsimp only
          rw [IH.2.2 kvs2 rest hw2.2.2 hr hnk]
        · rename_i hne
          exact (hne _ rfl).elim
  · intro xs rest hw hr hn
    cases xs with
    | nil =>
      rw [show items_cont d [] ++ ']' :: rest = ']' :: rest from rfl]
      simp only [parse_items]
      rw [skip_ws_cons (show py_is_space ']' = false from rfl)]
      dsimp only
      simp only [beq_self_eq_true, if_true]
    | cons y ys =>
      have hw2 : wf_val y = true ∧ wf_items ys = true := by
        rw [show wf_items (y :: ys) = (wf_val y && wf_items ys) from by
          simp [wf_items], Bool.and_eq_true] at hw
        exact hw
      have hnv : need_val y ≤ f := by
        simp only [need_items] at hn; omega
      have hni : need_items ys ≤ f := by
        simp only [need_items] at hn; omega
      rw [show items_cont d (y :: ys) ++ ']' :: rest =
          ',' :: ' ' :: (render_val d y ++ (items_cont d ys ++ ']' :: rest)) from by
        simp [items_cont, List.append_assoc]]
      simp only [parse_items]
      rw [skip_ws_cons (show py_is_space ',' = false from rfl)]
      dsimp only
      simp only [show ((',' : Char) == ']') = false from rfl, Bool.false_eq_true,
        if_false, beq_self_eq_true, if_true]
      rw [parse_val_ws d f _ (show py_is_space ' ' = true from rfl)]
      rw [IH.1 y (items_cont d ys ++ ']' :: rest) hw2.1
        (not_digit_items d ys rest) hnv]
      dsimp only
      rw [IH.2.1 ys rest hw2.2 hr hni]
  · intro kvs rest hw hr hn
    cases kvs with
    | nil =>
      rw [show kvs_cont d [] ++ rbrace :: rest = rbrace :: rest from rfl]
      simp only [parse_kvs]
      rw [skip_ws_cons (show py_is_space rbrace = false from by decide)]
      dsimp only
      simp only [beq_self_eq_true, if_true]
    | cons kv r =>
      obtain ⟨k, v⟩ := kv
      have hw2 : safe_str k = true ∧ wf_val v = true ∧ wf_kvs r = true := by
        rw [show wf_kvs ((k, v) :: r) =
          (safe_str k && wf_val v && wf_kvs r) from by
          simp [wf_kvs], Bool.and_eq_true, Bool.and_eq_true] at hw
        exact ⟨hw.1.1, hw.1.2, hw.2⟩
      have hnv : need_val v ≤ f := by
        simp only [need_kvs] at hn; omega
      have hnk : need_kvs r ≤ f := by
        simp only [need_kvs] at hn; omega
      rw [show kvs_cont d ((k, v) :: r) ++ rbrace :: rest =
          ',' :: ' ' :: (str_quote d :: (k.data ++ (str_quote d :: ':' :: ' ' ::
            (render_val d v ++ (kvs_cont d r ++ rbrace :: rest))))) from by
        simp [kvs_cont, List.append_assoc]]
      simp only [parse_kvs]
      rw [skip_ws_cons (show py_is_space ',' = false from rfl)]
      dsimp only
      simp only [show ((',' : Char) == rbrace) = false from by decide,
        Bool.false_eq_true, if_false, beq_self_eq_true, if_true]
      rw [skip_ws_cons_sp (show py_is_space ' ' = true from rfl)]
      rw [skip_ws_cons (quote_head_facts d).1]
      dsimp only
      simp only [(quote_head_facts d).2.1, if_true]
      rw [take_str_round (str_quote d) k.data _ (safe_str_qfree d hw2.1)]
      dsimp only
      rw [skip_ws_cons (show py_is_space ':' = false from rfl)]
      split
      · rename_i r3 heq
        rw [List.cons.injEq] at heq
        obtain ⟨-, heq2⟩ := heq
        subst heq2
        rw [parse_val_ws d f _ (show py_is_space ' ' = true from rfl)]
        rw [IH.1 v (kvs_cont d r ++ rbrace :: rest) hw2.2.1
          (not_digit_kvs d r rest) hnv]
        dsimp only
        rw [IH.2.2 r rest hw2.2.2 hr hnk]
      · rename_i hne
        exact (hne _ rfl).elim

mutual

/-- The demanded fuel of a value is bounded by its rendered length plus
one, in either dialect. -/
theorem need_le_render_val (d : Bool) : ∀ v : PyVal,
    need_val v ≤ (render_val d v).length + 1
  | .int n => by simp [need_val]
  | .str s => by simp [need_val]
  | .bool b => by simp [need_val]
  | .null => by simp [need_val]
  | .list xs => by
    have h := need_le_render_items d xs
    simp only [need_val, render_val, List.length_append, List.length_cons]
    omega
  | .dict kvs => by
    have h := need_le_render_kvs d kvs
    simp only [need_val, render_val, List.length_append, List.length_cons]
    omega

/-- The demanded fuel of an array continuation is bounded by the rendered
length of its elements plus two. -/
theorem need_le_render_items (d : Bool) : ∀ xs : List PyVal,
    need_items xs ≤ (render_items d xs).length + 2
  | [] => by simp [need_items]
  | [x] => by
    have h := need_le_render_val d x
    simp only [need_items, render_items, List.length_append, List.length_cons,
      List.length_nil]
    omega
  | x :: y :: rest => by
    have h1 := need_le_render_val d x
    have h2 := need_le_render_items d (y :: rest)
    simp only [need_items, render_items, List.length_append, List.length_cons]
    simp only [need_items, render_items, List.length_append,
      List.length_cons] at h2
    omega

/-- The demanded fuel of an object continuation is bounded by the rendered
length of its entries plus two. -/
theorem need_le_render_kvs (d : Bool) : ∀ kvs : List (String × PyVal),
    need_kvs kvs ≤ (render_kvs d kvs).length + 2
  | [] => by simp [need_kvs]
  | [(k, v)] => by
    have h := need_le_render_val d v
    simp only [need_kvs, render_kvs, List.length_append, List.length_cons,
      List.length_nil]
    omega
  | (k, v) :: (k2, v2) :: rest => by
    have h1 := need_le_render_val d v
    have h2 := need_le_render_kvs d ((k2, v2) :: rest)
    simp only [need_kvs, render_kvs, List.length_append, List.length_cons]
    simp only [need_kvs, render_kvs, List.length_append,
      List.length_cons] at h2
    omega

end

/-- The JSON loader reads back the JSON dump of any wellformed value. -/
theorem json_loads_dumps {v : PyVal} (h : wf_val v = true) :
    json_loads (json_dumps v) = some v := by
  unfold json_loads json_dumps
  dsimp only
  have hmain := (rt_main false ((render_val false v).length + 1)).1 v [] h rfl
    (need_le_render_val false v)
  rw [List.append_nil] at hmain
  rw [hmain]
  rfl

/-- The Python literal evaluator reads back the Python literal rendering
of any wellformed value. -/
theorem ast_eval_repr {v : PyVal} (h : wf_val v = true) :
    ast_literal_eval (python_repr v) = some v := by
  unfold ast_literal_eval python_repr
  dsimp only
  have hmain := (rt_main true ((render_val true v).length + 1)).1 v [] h rfl
    (need_le_render_val true v)
  rw [List.append_nil] at hmain
  rw [hmain]
  rfl

/-- The JSON loader rejects the Python literal rendering of a nonempty
object: the first key opens with a single quote. -/
theorem json_loads_repr_cons (k : String) (v : PyVal)
    (kvs : List (String × PyVal)) :
    json_loads (python_repr (.dict ((k, v) :: kvs))) = none := by
  have h1 : render_val true (.dict ((k, v) :: kvs)) =
      lbrace :: squote :: (k.data ++ (squote :: ':' :: ' ' ::
        (render_val true v ++ (kvs_cont true kvs ++ [rbrace])))) := by
    simp only [render_val, render_kvs_eq]
    simp [str_quote, List.append_assoc]
  unfold json_loads python_repr
  dsimp only
  rw [h1]
  simp only [List.length_cons, parse_val]
  rw [skip_ws_cons (show py_is_space lbrace = false from by decide)]
  dsimp only
  simp only [show quote_ok false lbrace = false from by decide,
    show (lbrace == '[') = false from by decide, Bool.false_eq_true, if_false,
    show (lbrace == lbrace) = true from by decide, if_true]
  rw [skip_ws_cons (show py_is_space squote = false from by decide)]
  dsimp only
  simp only [show (squote == rbrace) = false from by decide,
    show quote_ok false squote = false from by decide,
    Bool.false_eq_true, if_false]

/-- Claim C5: for every wellformed curation response object, parsing the
single quoted Python literal rendering yields the same result (same
session_summary and same memory list) as parsing the strict JSON
rendering, because the strict JSON parse of the Python rendering fails
and falls through to ast.literal_eval, whose value is re-serialized and
re-parsed as JSON; and when all three parse strategies fail the parser
returns the empty result shape without raising. -/
theorem c5_parser_fallback :
    (∀ kvs : List (String × PyVal), wf_val (.dict kvs) = true →
      parse_curation_response (python_repr (.dict kvs)) =
        parse_curation_response (json_dumps (.dict kvs))) ∧
    (∀ s : String, json_loads s = none → ast_literal_eval s = none →
      json_loads (regex_quote_fix s) = none →
      parse_curation_response s = .ok empty_curation_result) := by
  constructor
  · intro kvs hwf
    cases kvs with
    | nil => rfl
    | cons kv r =>
      obtain ⟨k, v⟩ := kv
      have hR : json_loads (json_dumps (.dict ((k, v) :: r))) =
          some (.dict ((k, v) :: r)) := json_loads_dumps hwf
      have hL1 : json_loads (python_repr (.dict ((k, v) :: r))) = none :=
        json_loads_repr_cons k v r
      have hL2 : ast_literal_eval (python_repr (.dict ((k, v) :: r))) =
          some (.dict ((k, v) :: r)) := ast_eval_repr hwf
      unfold parse_curation_response
      rw [hL1]
      dsimp only
      rw [hL2]
      dsimp only
      rw [hR]
      dsimp only
      rfl
  · intro s h1 h2 h3
    unfold parse_curation_response
    rw [h1, h2, h3]

/-- Witness for C5: the response object holding one session_summary entry,
rendered in Python literal syntax and in JSON, parses identically; and a
plain unparsable string yields the empty result shape. -/
theorem c5_witness :
    parse_curation_response
        (python_repr (.dict [("session_summary", .str "hello")])) =
      parse_curation_response
        (json_dumps (.dict [("session_summary", .str "hello")])) ∧
    parse_curation_response "x" = .ok empty_curation_result :=
  ⟨c5_parser_fallback.1 [("session_summary", .str "hello")] rfl,
   c5_parser_fallback.2 "x" rfl rfl rfl⟩
